import Mathlib

/-!
Verification of the injector.js dependency-injection module (src/unnamed/part_001,
with src/injector.js and src/unnamed/part_000 as historical variants of the same code).

The JavaScript module is embedded shallowly as a state machine:

* JSVal models JavaScript runtime values; objects, arrays and functions are
  heap references (sharing by reference is reference equality of ids).
* State models the mutable world: the private providerStorage map, the list of
  provider closures created by _callOnce (each closure carries its captured
  alreadyCalled flag and cachedResult variable, plus an instrumentation counter
  of how many times its wrapped callback body was entered), and heaps of plain
  objects, arrays and functions.  callCounts instruments, per function id, how
  many times that function body was executed.
* User-supplied target callables are defunctionalized: a FuncBody is a list of
  property assignments on the receiver followed by a result (return an atomic
  expression, return a fresh object literal, or throw).  This covers the
  callables exercised by the specification (constructors assigning to this,
  factories returning values or fresh objects, callbacks that throw).
* The mutually recursive JS call graph _resolve -> provider callback ->
  _inject -> _resolve is embedded as one structurally recursive evaluator
  evalStep over a fuel parameter; running out of fuel returns none
  (divergence, e.g. circular dependencies).  Thrown JS errors are JRes.thrown
  results carried together with the post-throw state, since in JS state
  mutations made before a throw persist.
* providerStorage is a plain object literal, so reading a name with no
  registered own entry continues along the prototype chain: names colliding
  with the function-valued Object.prototype methods (objectProtoFunctions)
  read the inherited method, which _resolve then invokes as the provider
  (callProtoMethod); all other absent names read a non-function and throw.
-/

set_option maxRecDepth 10000

/-- JavaScript runtime values.  Objects, arrays and functions are heap ids. -/
inductive JSVal where
  | undefined
  | boolean (b : Bool)
  | num (n : Int)
  | str (s : String)
  | objRef (r : Nat)
  | arrRef (r : Nat)
  | funcRef (r : Nat)
  deriving DecidableEq, Repr

/-- Atomic expressions available inside a defunctionalized callable body:
a literal value, the i-th positional argument, or the receiver (this). -/
inductive AExpr where
  | lit (v : JSVal)
  | arg (i : Nat)
  | thisVal
  deriving DecidableEq, Repr

/-- Result behaviour of a defunctionalized callable: return an atomic
expression, return a freshly allocated object literal, or throw an error. -/
inductive RetSpec where
  | retA (a : AExpr)
  | retObj (props : List (String × AExpr))
  | throwE (msg : String)
  deriving DecidableEq, Repr

/-- Body of a user callable: property assignments on the receiver (this),
executed left to right, followed by the result behaviour. -/
structure FuncBody where
  assigns : List (String × AExpr)
  result : RetSpec
  deriving DecidableEq, Repr

/-- Function heap entries: a user function with its declared parameter names
and body, or a bound function produced by func.bind(ctx) inside _service. -/
inductive FuncDef where
  | user (params : List String) (body : FuncBody)
  | bound (target : Nat) (ctx : Nat)
  deriving DecidableEq, Repr

/-- Kind of provider closure registered in _providerStorage.  valueP is the
closure made by _value, factoryP the one made by _factory (which captured the
array extracted at registration time), serviceP the one made by _service
(which captured the raw providerDefn; extraction happens inside the callback
at first invocation, exactly as in the source). -/
inductive ProviderKind where
  | valueP (v : JSVal)
  | factoryP (arrId : Nat)
  | serviceP (defn : JSVal)
  deriving DecidableEq, Repr

/-- State of one _callOnce closure: its kind plus the captured variables
alreadyCalled and cachedResult of the source, and an instrumentation counter
invocations counting how many times the wrapped callback body was entered. -/
structure Provider where
  kind : ProviderKind
  alreadyCalled : Bool
  cachedResult : JSVal
  invocations : Nat
  deriving DecidableEq, Repr

/-- The mutable world of the module.  providerStorage is the private
_providerStorage map (an association list where the head entry for a name
shadows older entries, i.e. later registrations overwrite earlier ones);
providers is the heap of _callOnce closures; objects, arrays, funcs are the
JS heaps; callCounts is index-aligned with funcs and counts executions of
each user function body. -/
structure State where
  providerStorage : List (String × Nat)
  providers : List Provider
  objects : List (List (String × JSVal))
  arrays : List (List JSVal)
  funcs : List FuncDef
  callCounts : List Nat
  deriving DecidableEq, Repr

/-- Outcome of a JS computation: a normal value or a thrown error. -/
inductive JRes (α : Type) where
  | ok (v : α)
  | thrown (e : String)
  deriving DecidableEq, Repr

/-- Initial state: empty storage and heaps, except the global object at id 0
(the receiver used when a function is applied with an undefined context in
non-strict mode). -/
def initState : State :=
  { providerStorage := [], providers := [], objects := [[]],
    arrays := [], funcs := [], callCounts := [] }

/-- JavaScript coercion of a value to a property-key string, used when a
dependency-array element is looked up in _providerStorage and interpolated in
the error message of _resolve.  In every documented use the element is
already a string; reference values are given fixed representative coercions. -/
def jsKeyString : JSVal → String
  | .undefined => "undefined"
  | .boolean b => if b then "true" else "false"
  | .num n => toString n
  | .str s => s
  | .objRef _ => "[object Object]"
  | .arrRef _ => ""
  | .funcRef _ => "function"

/-- Own-property lookup in the private _providerStorage object; the head
entry for a name shadows older ones.  Registration creates own properties
that shadow anything inherited, so this is the first stage of the read
_providerStorage[name]; for names with no own entry the read continues
along the prototype chain, which the evaluator applies at the read site
(see objectProtoFunctions). -/
def lookupStorage : List (String × Nat) → String → Option Nat
  | [], _ => none
  | (k, pid) :: rest, key => if k = key then some pid else lookupStorage rest key

/-- Message thrown by _extractProviderArray for an invalid specification. -/
def invalidSpecMsg : String :=
  "Injectables must either be a single function or an array with a function as the final element"

/-- Message thrown by _resolve for a missing or non-callable provider. -/
def unknownDepMsg (key : String) : String :=
  "Provider for " ++ key ++ " failed"

/- ---------- the argument-name introspection helper _getFuncArgs ---------- -/

/-- Whitespace characters removed by the replace step of _getFuncArgs. -/
def isJsSpace (c : Char) : Bool :=
  c = ' ' ∨ c = '\t' ∨ c = '\n' ∨ c = '\r'

/-- Scan for the first closing parenthesis, returning the characters up to and
including it; fails at a line terminator or at the end of input (the dot of
the regex in _getFuncArgs does not match line terminators). -/
def scanToRParen : List Char → Option (List Char)
  | [] => none
  | c :: cs =>
    if c = ')' then some [c]
    else if c = '\n' ∨ c = '\r' then none
    else (scanToRParen cs).map (c :: ·)

/-- Leftmost match of the source regex against the function text: at each
opening parenthesis try to complete a match on the same line; otherwise keep
scanning.  Returns the matched text including both parentheses. -/
def matchParens : List Char → Option (List Char)
  | [] => none
  | c :: cs =>
    if c = '(' then
      match scanToRParen cs with
      | some body => some (c :: body)
      | none => matchParens cs
    else matchParens cs

/-- Replace step of _getFuncArgs: remove parentheses and whitespace. -/
def stripParenWs (l : List Char) : List Char :=
  l.filter (fun c => ¬(c = '(' ∨ c = ')' ∨ isJsSpace c))

/-- JavaScript String.prototype.split on a comma: the empty string splits to
a single empty group. -/
def splitCommaL : List Char → List (List Char)
  | [] => [[]]
  | c :: cs =>
    if c = ','
    then [] :: splitCommaL cs
    else
      match splitCommaL cs with
      | [] => [[c]]
      | g :: gs => (c :: g) :: gs

/-- Embedding of _getFuncArgs: match the parenthesized parameter list in the
function source text, strip parentheses and whitespace, split on commas and
drop empty entries.  Returns none when the regex match fails (in JS that is a
TypeError from indexing null). -/
def _getFuncArgs (src : List Char) : Option (List String) :=
  (matchParens src).map fun m =>
    ((splitCommaL (stripParenWs m)).map (fun l => String.mk l)).filter (fun w => w ≠ "")

/-- Parameter list as it appears textually between the parentheses of a
function source, comma separated. -/
def joinParams : List String → List Char
  | [] => []
  | [p] => p.toList
  | p :: ps => p.toList ++ ',' :: joinParams ps

/-- Model of Function.prototype.toString for a user function: the canonical
source text with its declared parameter list. -/
def userFuncSource (ps : List String) : List Char :=
  "function (".toList ++ joinParams ps ++ ") \x7b\x7d".toList

/-- Model of Function.prototype.toString for a bound function: native code
with an empty parameter list. -/
def boundFuncSource : List Char :=
  "function () \x7b [native code] \x7d".toList

/-- Source text of the function stored at heap id f. -/
def funcSourceChars (s : State) (f : Nat) : List Char :=
  match s.funcs.get? f with
  | some (.user ps _) => userFuncSource ps
  | some (.bound _ _) => boundFuncSource
  | none => []

/- ---------- small state operations ---------- -/

/-- Append a fresh provider closure (alreadyCalled false, cachedResult
undefined) returning its id. -/
def addProvider (s : State) (k : ProviderKind) : State × Nat :=
  ({ s with providers :=
      s.providers ++ [{ kind := k, alreadyCalled := false,
                        cachedResult := .undefined, invocations := 0 }] },
   s.providers.length)

/-- Embedding of _register: store the provider id under the name, shadowing
any earlier registration of that name. -/
def _register (s : State) (name : String) (pid : Nat) : State :=
  { s with providerStorage := (name, pid) :: s.providerStorage }

/-- Set the alreadyCalled flag of a provider closure and count the entry into
its wrapped callback.  In the source this is the assignment alreadyCalled =
true performed before callback() is invoked. -/
def setProviderCalled (s : State) (pid : Nat) : State :=
  match s.providers.get? pid with
  | some p =>
    let p2 : Provider := { p with alreadyCalled := true, invocations := p.invocations + 1 }
    { s with providers := s.providers.set pid p2 }
  | none => s

/-- Store the computed value in the cachedResult variable of a provider
closure.  In the source this is cachedResult = callback(). -/
def setProviderCached (s : State) (pid : Nat) (v : JSVal) : State :=
  match s.providers.get? pid with
  | some p =>
    let p2 : Provider := { p with cachedResult := v }
    { s with providers := s.providers.set pid p2 }
  | none => s

/-- Overwrite the contents of the array at heap id a. -/
def setArr (s : State) (a : Nat) (elems : List JSVal) : State :=
  { s with arrays := s.arrays.set a elems }

/-- Set a property in a property list, replacing an existing binding of the
same key or appending a new one. -/
def propSet : List (String × JSVal) → String → JSVal → List (String × JSVal)
  | [], k, v => [(k, v)]
  | (k0, v0) :: rest, k, v =>
    if k0 = k then (k0, v) :: rest else (k0, v0) :: propSet rest k v

/-- Assign a property on the object at heap id oid. -/
def setObjProp (s : State) (oid : Nat) (k : String) (v : JSVal) : State :=
  { s with objects := s.objects.set oid (propSet (s.objects.getD oid []) k v) }

/-- Count one execution of the user function at id r. -/
def bumpCount (s : State) (r : Nat) : State :=
  { s with callCounts := s.callCounts.set r (s.callCounts.getD r 0 + 1) }

/-- Value of an atomic expression given the positional arguments and the
receiver object id. -/
def evalA (args : List JSVal) (recvId : Nat) : AExpr → JSVal
  | .lit v => v
  | .arg i => args.getD i .undefined
  | .thisVal => .objRef recvId

/-- Run the property assignments of a callable body on its receiver. -/
def runAssigns (s : State) (recvId : Nat) (args : List JSVal) :
    List (String × AExpr) → State
  | [] => s
  | (k, ae) :: rest =>
    runAssigns (setObjProp s recvId k (evalA args recvId ae)) recvId args rest

/-- Embedding of _extractProviderArray.  An array whose final element is a
function is returned as is (the very same heap array, not a copy); a bare
function has its parameter names introspected from its source text and a
fresh array of those names followed by the function is allocated; anything
else throws the invalid-specification error.  A failed regex match on the
function text is the TypeError JS raises when indexing a null match. -/
def _extractProviderArray (s : State) (defn : JSVal) : State × JRes Nat :=
  match defn with
  | .arrRef a =>
    match (s.arrays.getD a []).getLast? with
    | some (.funcRef _) => (s, .ok a)
    | _ => (s, .thrown invalidSpecMsg)
  | .funcRef f =>
    match _getFuncArgs (funcSourceChars s f) with
    | none => (s, .thrown "TypeError: Cannot read property 0 of null")
    | some ps =>
      ({ s with arrays := s.arrays ++ [ps.map JSVal.str ++ [JSVal.funcRef f]] },
       .ok s.arrays.length)
  | _ => (s, .thrown invalidSpecMsg)

/-- Embedding of Function.prototype.apply on the stored function value: a
bound function forwards to its target with the captured context as receiver;
a user function body runs with the supplied receiver (defaulting to the
global object at id 0), executing its assignments then producing its result.
The fuel bounds chains of bound functions. -/
def callFunc : Nat → State → JSVal → Option Nat → List JSVal →
    Option (State × JRes JSVal)
  | 0, _, _, _, _ => none
  | fuel + 1, s, fv, recv, args =>
    match fv with
    | .funcRef r =>
      match s.funcs.get? r with
      | some (.bound target ctx) => callFunc fuel s (.funcRef target) (some ctx) args
      | some (.user _ body) =>
        let s1 := bumpCount s r
        let recvId := recv.getD 0
        let s2 := runAssigns s1 recvId args body.assigns
        match body.result with
        | .retA ae => some (s2, .ok (evalA args recvId ae))
        | .retObj props =>
          some ({ s2 with objects :=
                    s2.objects ++ [props.map (fun kv => (kv.1, evalA args recvId kv.2))] },
                .ok (.objRef s2.objects.length))
        | .throwE m => some (s2, .thrown m)
      | none => some (s, .thrown "TypeError: apply of invalid function")
    | _ => some (s, .thrown "TypeError: apply of invalid function")

/-- Requests of the mutually recursive evaluator: resolve one dependency
value (the argument of _resolve), resolve a list of dependency names
left to right (dependencyArr.map of _resolve inside _inject), perform an
injection (_inject with its optional context), or run the wrapped callback of
a provider closure of the given kind. -/
inductive Req where
  | res (x : JSVal)
  | resL (xs : List JSVal)
  | inj (defn : JSVal) (ctx : Option Nat)
  | body (kind : ProviderKind)
  deriving DecidableEq, Repr

/-- Results of evaluator requests: one value, or the list of resolved
dependency values. -/
inductive Res where
  | val (v : JSVal)
  | vals (vs : List JSVal)
  deriving DecidableEq, Repr

/-- Single value carried by a Res (requests other than resL always answer
with val). -/
def resToVal : Res → JSVal
  | .val v => v
  | .vals _ => .undefined

/-- Value list carried by a Res (resL requests always answer with vals). -/
def resToVals : Res → List JSVal
  | .val v => [v]
  | .vals vs => vs

/-- The function-valued own properties of Object.prototype.  The storage
object _providerStorage is a plain object literal, so a property read for a
name with no registered (own) entry continues along the prototype chain and
finds these inherited methods; the typeof check in _resolve then sees a
function and the inherited method is invoked as the provider.  The remaining
Object.prototype member reachable by a read, the accessor property
__proto__, yields the prototype object itself — not a function — so names
that are neither registered nor listed here fail the typeof check exactly
like absent ones. -/
def objectProtoFunctions : List String :=
  ["constructor", "toString", "toLocaleString", "valueOf", "hasOwnProperty",
   "isPrototypeOf", "propertyIsEnumerable", "__defineGetter__",
   "__defineSetter__", "__lookupGetter__", "__lookupSetter__"]

/-- Modelled host behaviour of invoking an inherited Object.prototype method
as a provider: a bare non-strict call provider(), so the receiver defaults
to the global object (heap object 0, as in callFunc) and there are no
arguments.  valueOf returns the
receiver; constructor is the Object function, which called without
arguments allocates and returns a fresh empty object; toString and
toLocaleString return the host class string of the global object (the Node
host the tests run under prints global; browser hosts print Window);
hasOwnProperty is asked for the own property named undefined, which the
global object has; isPrototypeOf and propertyIsEnumerable are false on an
undefined argument; the two legacy lookup methods return undefined; the two
legacy define methods throw a TypeError because their undefined callback
argument is not callable.  The module contract never depends on these
values, only on the calls returning instead of raising the
unknown-dependency error. -/
def callProtoMethod (s : State) (key : String) : State × JRes Res :=
  if key = "valueOf" then (s, .ok (.val (.objRef 0)))
  else if key = "constructor" then
    ({ s with objects := s.objects ++ [[]] }, .ok (.val (.objRef s.objects.length)))
  else if key = "toString" ∨ key = "toLocaleString" then
    (s, .ok (.val (.str "[object global]")))
  else if key = "hasOwnProperty" then (s, .ok (.val (.boolean true)))
  else if key = "isPrototypeOf" ∨ key = "propertyIsEnumerable" then
    (s, .ok (.val (.boolean false)))
  else if key = "__lookupGetter__" ∨ key = "__lookupSetter__" then
    (s, .ok (.val .undefined))
  else (s, .thrown "TypeError: Getter must be a function")

/-- One evaluator for the mutually recursive source functions _resolve,
_inject and the provider callbacks created by _value, _factory and _service,
structurally recursive on a fuel parameter; none means the fuel ran out
(the JS computation would still be running, e.g. on circular dependencies).

The res branch embeds _resolve including the _callOnce wrapper around every
registered provider: a name with no own entry falls through to the prototype
chain of the plain storage object, so reading it either finds an inherited
Object.prototype method (a function, which is invoked as the provider) or
yields a non-function — the __proto__ accessor's object, or undefined — and
the typeof check throws the unknown-dependency error; an
alreadyCalled closure returns its cachedResult unchanged; otherwise
alreadyCalled is set to true before the callback runs (so a throwing
callback still leaves the flag set), and cachedResult is assigned only when
the callback returns normally.

The body branch embeds the three wrapped callbacks: the _value callback
returns the captured value; the _factory callback injects the captured
extracted array; the _service callback extracts the captured definition,
pops the target function off the resulting array, allocates a fresh empty
context object, binds the function to it, pushes the bound function back
onto the same array, injects that array under the context and returns the
context object itself.

The inj branch embeds _inject: extract the provider array, read the target
function from its last slot, copy out the leading dependency names, resolve
them left to right, and apply the target under the optional context. -/
def evalStep : Nat → State → Req → Option (State × JRes Res)
  | 0, _, _ => none
  | fuel + 1, s, req =>
    match req with
    | .res x =>
      let key := jsKeyString x
      match lookupStorage s.providerStorage key with
      | none =>
        if objectProtoFunctions.contains key then some (callProtoMethod s key)
        else some (s, .thrown (unknownDepMsg key))
      | some pid =>
        match s.providers.get? pid with
        | none => some (s, .thrown (unknownDepMsg key))
        | some p =>
          if p.alreadyCalled then some (s, .ok (.val p.cachedResult))
          else
            let s1 := setProviderCalled s pid
            match evalStep fuel s1 (.body p.kind) with
            | none => none
            | some (s2, .thrown e) => some (s2, .thrown e)
            | some (s2, .ok r) =>
              some (setProviderCached s2 pid (resToVal r), .ok (.val (resToVal r)))
    | .resL xs =>
      match xs with
      | [] => some (s, .ok (.vals []))
      | x :: rest =>
        match evalStep fuel s (.res x) with
        | none => none
        | some (s1, .thrown e) => some (s1, .thrown e)
        | some (s1, .ok r) =>
          match evalStep fuel s1 (.resL rest) with
          | none => none
          | some (s2, .thrown e) => some (s2, .thrown e)
          | some (s2, .ok r2) => some (s2, .ok (.vals (resToVal r :: (resToVals r2))))
    | .inj defn ctx =>
      match _extractProviderArray s defn with
      | (s1, .thrown e) => some (s1, .thrown e)
      | (s1, .ok arrId) =>
        let arr := s1.arrays.getD arrId []
        let injectedFunc := arr.getLast?.getD .undefined
        let depNames := arr.dropLast
        match evalStep fuel s1 (.resL depNames) with
        | none => none
        | some (s2, .thrown e) => some (s2, .thrown e)
        | some (s2, .ok r) =>
          match callFunc fuel s2 injectedFunc ctx (resToVals r) with
          | none => none
          | some (s3, .thrown e) => some (s3, .thrown e)
          | some (s3, .ok v) => some (s3, .ok (.val v))
    | .body k =>
      match k with
      | .valueP v => some (s, .ok (.val v))
      | .factoryP arrId => evalStep fuel s (.inj (.arrRef arrId) none)
      | .serviceP defn =>
        match _extractProviderArray s defn with
        | (s1, .thrown e) => some (s1, .thrown e)
        | (s1, .ok arrId) =>
          let arr := s1.arrays.getD arrId []
          let fv := arr.getLast?.getD .undefined
          let s2 := setArr s1 arrId arr.dropLast
          let ctxId := s2.objects.length
          let s3 := { s2 with objects := s2.objects ++ [[]] }
          match fv with
          | .funcRef fref =>
            let bId := s3.funcs.length
            let s4 := { s3 with funcs := s3.funcs ++ [.bound fref ctxId],
                                callCounts := s3.callCounts ++ [0] }
            let s5 := setArr s4 arrId (arr.dropLast ++ [.funcRef bId])
            match evalStep fuel s5 (.inj (.arrRef arrId) (some ctxId)) with
            | none => none
            | some (s6, .thrown e) => some (s6, .thrown e)
            | some (s6, .ok _) => some (s6, .ok (.val (.objRef ctxId)))
          | _ => some (s3, .thrown "TypeError: func.bind is not a function")

/-- Embedding of _resolve on a dependency name. -/
def _resolve (fuel : Nat) (s : State) (x : JSVal) : Option (State × JRes JSVal) :=
  (evalStep fuel s (.res x)).map fun p => (p.1, match p.2 with
    | .ok r => .ok (resToVal r)
    | .thrown e => .thrown e)

/-- Embedding of _inject (also the behaviour of calling the injector module
directly). -/
def _inject (fuel : Nat) (s : State) (defn : JSVal) (ctx : Option Nat) :
    Option (State × JRes JSVal) :=
  (evalStep fuel s (.inj defn ctx)).map fun p => (p.1, match p.2 with
    | .ok r => .ok (resToVal r)
    | .thrown e => .thrown e)

/-- Embedding of _value: wrap the value in a fresh _callOnce closure and
register it; never throws.  The source returns the injector for chaining. -/
def _value (s : State) (name : String) (v : JSVal) : State :=
  let sp := addProvider s (.valueP v)
  _register sp.1 name sp.2

/-- Embedding of _factory: extract the provider array at registration time
(so an invalid specification throws immediately, leaving the state
untouched), wrap the injection of that array in a fresh _callOnce closure
and register it. -/
def _factory (s : State) (name : String) (defn : JSVal) : State × JRes Unit :=
  match _extractProviderArray s defn with
  | (s1, .thrown e) => (s1, .thrown e)
  | (s1, .ok arrId) =>
    let sp := addProvider s1 (.factoryP arrId)
    (_register sp.1 name sp.2, .ok ())

/-- Embedding of _service: the raw definition is captured by the _callOnce
closure and only examined on first resolution, so registration itself never
throws. -/
def _service (s : State) (name : String) (defn : JSVal) : State :=
  let sp := addProvider s (.serviceP defn)
  _register sp.1 name sp.2

/-- Public operations of the module, for reasoning about whole lifetimes of
the store. -/
inductive Op where
  | opValue (name : String) (v : JSVal)
  | opFactory (name : String) (defn : JSVal)
  | opService (name : String) (defn : JSVal)
  | opInject (defn : JSVal)
  deriving DecidableEq, Repr

/-- Run one public operation, keeping the state and discarding the result or
thrown error (errors propagate to the embedding caller, who may continue
using the store). -/
def runOp (fuel : Nat) (s : State) : Op → Option State
  | .opValue n v => some (_value s n v)
  | .opFactory n d => some (_factory s n d).1
  | .opService n d => some (_service s n d)
  | .opInject d => (_inject fuel s d none).map (fun p => p.1)

/-- Run a sequence of public operations from a state. -/
def runOps (fuel : Nat) (s : State) : List Op → Option State
  | [] => some s
  | op :: ops =>
    match runOp fuel s op with
    | none => none
    | some s1 => runOps fuel s1 ops

/-- Allocate a user function in the heap, returning its id; a convenience for
building concrete scenarios. -/
def allocFunc (s : State) (ps : List String) (b : FuncBody) : State × Nat :=
  ({ s with funcs := s.funcs ++ [.user ps b], callCounts := s.callCounts ++ [0] },
   s.funcs.length)

/-- Allocate an array in the heap, returning its id. -/
def allocArr (s : State) (elems : List JSVal) : State × Nat :=
  ({ s with arrays := s.arrays ++ [elems] }, s.arrays.length)

/-- Specification shapes rejected by _extractProviderArray: neither an array
whose final element is a function, nor a bare function. -/
def isBadSpec (s : State) (d : JSVal) : Bool :=
  match d with
  | .funcRef _ => false
  | .arrRef a =>
    match (s.arrays.getD a []).getLast? with
    | some (.funcRef _) => false
    | _ => true
  | _ => true

/-- Pure account of a sequence of property assignments on one object: the
property list after executing the assignments left to right. -/
def applyAssignsP (args : List JSVal) (recvId : Nat) :
    List (String × JSVal) → List (String × AExpr) → List (String × JSVal)
  | pr, [] => pr
  | pr, (k, ae) :: rest => applyAssignsP args recvId (propSet pr k (evalA args recvId ae)) rest

/-- State reached inside the service callback just before the inner _inject:
starting from the post-flag state sc, the target function has been popped
off the spec array, a fresh empty context object allocated, the function
bound to it, and the bound function pushed back onto the same array. -/
def serviceMidState (sc : State) (a : Nat) (elems : List JSVal) (fref : Nat) : State :=
  let s2 := setArr sc a elems
  let ctxId := s2.objects.length
  let s3 := { s2 with objects := s2.objects ++ [[]] }
  let bId := s3.funcs.length
  let s4 := { s3 with funcs := s3.funcs ++ [.bound fref ctxId],
                      callCounts := s3.callCounts ++ [0] }
  setArr s4 a (elems ++ [.funcRef bId])

/-- Invariant of the _callOnce wrapping: every provider closure ever created
has entered its wrapped callback at most once, and a closure whose
alreadyCalled flag is still false has never entered it. -/
def ProviderOnceInv (s : State) : Prop :=
  ∀ i p, s.providers.get? i = some p →
    p.invocations ≤ 1 ∧ (p.alreadyCalled = false → p.invocations = 0)

/-- Facts preserved by every step of the resolution engine (no registration
happens during resolution): the storage map and the number of provider
closures are unchanged, a closure that had already been called is left
entirely untouched (its cached result is permanent), the function heap only
grows, and the call-once invariant is preserved. -/
def EvalFrame (s s' : State) : Prop :=
  s'.providerStorage = s.providerStorage ∧
  s'.providers.length = s.providers.length ∧
  (∀ pid p, s.providers.get? pid = some p → p.alreadyCalled = true →
      s'.providers.get? pid = some p) ∧
  (∃ ext, s'.funcs = s.funcs ++ ext) ∧
  (ProviderOnceInv s → ProviderOnceInv s')

theorem evalFrame_refl (s : State) : EvalFrame s s := by
  refine ⟨rfl, rfl, ?_, ⟨[], by simp⟩, fun h => h⟩
  intro pid p h _
  exact h

theorem evalFrame_trans {s1 s2 s3 : State} (h12 : EvalFrame s1 s2)
    (h23 : EvalFrame s2 s3) : EvalFrame s1 s3 := by
  obtain ⟨a1, b1, c1, ⟨e1, f1⟩, g1⟩ := h12
  obtain ⟨a2, b2, c2, ⟨e2, f2⟩, g2⟩ := h23
  refine ⟨a2.trans a1, b2.trans b1, ?_, ⟨e1 ++ e2, ?_⟩, fun h => g2 (g1 h)⟩
  · intro pid p h hc
    exact c2 pid p (c1 pid p h hc) hc
  · rw [f2, f1, List.append_assoc]

theorem callProtoMethod_frame (s : State) (key : String) :
    EvalFrame s (callProtoMethod s key).1 := by
  unfold callProtoMethod
  split_ifs <;>
    exact ⟨rfl, rfl, fun _ _ h _ => h, ⟨[], by simp⟩, fun h => h⟩

theorem runAssigns_providerStorage (r : Nat) (a : List JSVal) :
    ∀ (l : List (String × AExpr)) (s : State),
      (runAssigns s r a l).providerStorage = s.providerStorage := by
  intro l
  induction l with
  | nil => intro s; rfl
  | cons kv rest ih =>
    intro s
    obtain ⟨k, ae⟩ := kv
    simpa [runAssigns, setObjProp] using ih (setObjProp s r k (evalA a r ae))

theorem runAssigns_providers (r : Nat) (a : List JSVal) :
    ∀ (l : List (String × AExpr)) (s : State),
      (runAssigns s r a l).providers = s.providers := by
  intro l
  induction l with
  | nil => intro s; rfl
  | cons kv rest ih =>
    intro s
    obtain ⟨k, ae⟩ := kv
    simpa [runAssigns, setObjProp] using ih (setObjProp s r k (evalA a r ae))

theorem runAssigns_funcs (r : Nat) (a : List JSVal) :
    ∀ (l : List (String × AExpr)) (s : State),
      (runAssigns s r a l).funcs = s.funcs := by
  intro l
  induction l with
  | nil => intro s; rfl
  | cons kv rest ih =>
    intro s
    obtain ⟨k, ae⟩ := kv
    simpa [runAssigns, setObjProp] using ih (setObjProp s r k (evalA a r ae))

theorem runAssigns_arrays (r : Nat) (a : List JSVal) :
    ∀ (l : List (String × AExpr)) (s : State),
      (runAssigns s r a l).arrays = s.arrays := by
  intro l
  induction l with
  | nil => intro s; rfl
  | cons kv rest ih =>
    intro s
    obtain ⟨k, ae⟩ := kv
    simpa [runAssigns, setObjProp] using ih (setObjProp s r k (evalA a r ae))

theorem runAssigns_callCounts (r : Nat) (a : List JSVal) :
    ∀ (l : List (String × AExpr)) (s : State),
      (runAssigns s r a l).callCounts = s.callCounts := by
  intro l
  induction l with
  | nil => intro s; rfl
  | cons kv rest ih =>
    intro s
    obtain ⟨k, ae⟩ := kv
    simpa [runAssigns, setObjProp] using ih (setObjProp s r k (evalA a r ae))

theorem callFunc_core :
    ∀ (fuel : Nat) (s : State) (fv : JSVal) (recv : Option Nat) (args : List JSVal)
      (s' : State) (r : JRes JSVal),
      callFunc fuel s fv recv args = some (s', r) →
      s'.providerStorage = s.providerStorage ∧ s'.providers = s.providers ∧
      s'.funcs = s.funcs ∧ s'.arrays = s.arrays := by
  intro fuel
  induction fuel with
  | zero => intro s fv recv args s' r h; simp [callFunc] at h
  | succ n ih =>
    intro s fv recv args s' r h
    cases fv with
    | funcRef rr =>
      simp only [callFunc] at h
      cases hf : s.funcs.get? rr with
      | none =>
        rw [hf] at h; simp at h
        obtain ⟨h1, _⟩ := h
        subst h1
        exact ⟨rfl, rfl, rfl, rfl⟩
      | some fd =>
        rw [hf] at h
        cases fd with
        | bound target ctx => exact ih s (.funcRef target) (some ctx) args s' r h
        | user ps body =>
          simp only at h
          cases hres : body.result with
          | retA ae =>
            rw [hres] at h; simp only [Option.some.injEq, Prod.mk.injEq] at h
            obtain ⟨h1, _⟩ := h
            subst h1
            refine ⟨?_, ?_, ?_, ?_⟩ <;>
              simp [runAssigns_providerStorage, runAssigns_providers,
                    runAssigns_funcs, runAssigns_arrays, bumpCount]
          | retObj props =>
            rw [hres] at h; simp only [Option.some.injEq, Prod.mk.injEq] at h
            obtain ⟨h1, _⟩ := h
            subst h1
            refine ⟨?_, ?_, ?_, ?_⟩ <;>
              simp [runAssigns_providerStorage, runAssigns_providers,
                    runAssigns_funcs, runAssigns_arrays, bumpCount]
          | throwE m =>
            rw [hres] at h; simp only [Option.some.injEq, Prod.mk.injEq] at h
            obtain ⟨h1, _⟩ := h
            subst h1
            refine ⟨?_, ?_, ?_, ?_⟩ <;>
              simp [runAssigns_providerStorage, runAssigns_providers,
                    runAssigns_funcs, runAssigns_arrays, bumpCount]
    | undefined =>
      simp [callFunc] at h
      obtain ⟨h1, _⟩ := h
      subst h1
      exact ⟨rfl, rfl, rfl, rfl⟩
    | boolean b =>
      simp [callFunc] at h
      obtain ⟨h1, _⟩ := h
      subst h1
      exact ⟨rfl, rfl, rfl, rfl⟩
    | num nn =>
      simp [callFunc] at h
      obtain ⟨h1, _⟩ := h
      subst h1
      exact ⟨rfl, rfl, rfl, rfl⟩
    | str ss =>
      simp [callFunc] at h
      obtain ⟨h1, _⟩ := h
      subst h1
      exact ⟨rfl, rfl, rfl, rfl⟩
    | objRef oo =>
      simp [callFunc] at h
      obtain ⟨h1, _⟩ := h
      subst h1
      exact ⟨rfl, rfl, rfl, rfl⟩
    | arrRef aa =>
      simp [callFunc] at h
      obtain ⟨h1, _⟩ := h
      subst h1
      exact ⟨rfl, rfl, rfl, rfl⟩

theorem extract_core (s : State) (defn : JSVal) :
    (_extractProviderArray s defn).1.providerStorage = s.providerStorage ∧
    (_extractProviderArray s defn).1.providers = s.providers ∧
    (_extractProviderArray s defn).1.funcs = s.funcs ∧
    (_extractProviderArray s defn).1.objects = s.objects ∧
    (_extractProviderArray s defn).1.callCounts = s.callCounts := by
  cases defn <;> simp only [_extractProviderArray] <;> (try (split <;> try split)) <;>
    simp

theorem evalFrame_of_eqs {s s2 : State} (h1 : s2.providerStorage = s.providerStorage)
    (h2 : s2.providers = s.providers) (h3 : ∃ ext, s2.funcs = s.funcs ++ ext) :
    EvalFrame s s2 := by
  refine ⟨h1, by rw [h2], ?_, h3, ?_⟩
  · intro pid p h _
    rw [h2]
    exact h
  · intro hinv i p hp
    rw [h2] at hp
    exact hinv i p hp

theorem setProviderCalled_frame {s : State} {pid : Nat} {p : Provider}
    (hp : s.providers.get? pid = some p) (hc : p.alreadyCalled = false) :
    EvalFrame s (setProviderCalled s pid) := by
  have hlen : pid < s.providers.length := by
    have := List.get?_eq_some.mp hp
    exact this.1
  have hset : setProviderCalled s pid = { s with providers := s.providers.set pid { p with alreadyCalled := true, invocations := p.invocations + 1 } } := by
    unfold setProviderCalled
    rw [hp]
  refine ⟨?_, ?_, ?_, ⟨[], by rw [hset]; simp⟩, ?_⟩
  · rw [hset]
  · rw [hset]; simp
  · intro q pq hq hcq
    by_cases hqp : q = pid
    · subst hqp
      rw [hq] at hp
      cases hp
      rw [hcq] at hc
      cases hc
    · rw [hset]
      simp only
      rw [List.get?_set_ne _ _ (fun a => hqp a.symm)]
      exact hq
  · intro hinv i q hq
    rw [hset] at hq
    simp only at hq
    by_cases hip : i = pid
    · subst hip
      rw [List.get?_set_eq_of_lt _ hlen] at hq
      cases hq
      have h0 := (hinv _ p hp).2 hc
      simp [h0]
    · rw [List.get?_set_ne _ _ (fun a => hip a.symm)] at hq
      exact hinv i q hq

theorem setProviderCached_storage (s : State) (pid : Nat) (v : JSVal) :
    (setProviderCached s pid v).providerStorage = s.providerStorage := by
  unfold setProviderCached
  cases s.providers.get? pid <;> rfl

theorem setProviderCached_funcs (s : State) (pid : Nat) (v : JSVal) :
    (setProviderCached s pid v).funcs = s.funcs := by
  unfold setProviderCached
  cases s.providers.get? pid <;> rfl

theorem setProviderCached_length (s : State) (pid : Nat) (v : JSVal) :
    (setProviderCached s pid v).providers.length = s.providers.length := by
  unfold setProviderCached
  cases s.providers.get? pid <;> simp

theorem setProviderCached_get_ne (s : State) (pid : Nat) (v : JSVal) {q : Nat}
    (hqp : q ≠ pid) :
    (setProviderCached s pid v).providers.get? q = s.providers.get? q := by
  unfold setProviderCached
  cases s.providers.get? pid with
  | none => rfl
  | some p =>
    simp only
    exact List.get?_set_ne _ _ (fun a => hqp a.symm)

theorem setProviderCached_inv {s : State} (pid : Nat) (v : JSVal)
    (hinv : ProviderOnceInv s) : ProviderOnceInv (setProviderCached s pid v) := by
  intro i q hq
  unfold setProviderCached at hq
  cases hp : s.providers.get? pid with
  | none =>
    rw [hp] at hq
    exact hinv i q hq
  | some p =>
    rw [hp] at hq
    simp only at hq
    by_cases hip : i = pid
    · subst hip
      have hlen : i < s.providers.length := (List.get?_eq_some.mp hp).1
      rw [List.get?_set_eq_of_lt _ hlen] at hq
      cases hq
      have := hinv _ p hp
      simpa using this
    · rw [List.get?_set_ne _ _ (fun a => hip a.symm)] at hq
      exact hinv i q hq

theorem evalStep_frame :
    ∀ (fuel : Nat) (s : State) (req : Req) (s2 : State) (r : JRes Res),
      evalStep fuel s req = some (s2, r) → EvalFrame s s2 := by
  intro fuel
  induction fuel with
  | zero => intro s req s2 r h; simp [evalStep] at h
  | succ n ih =>
    intro s req s2 r h
    cases req with
    | res x =>
      simp only [evalStep] at h
      cases hl : lookupStorage s.providerStorage (jsKeyString x) with
      | none =>
        rw [hl] at h
        simp only at h
        split at h
        · have h2 : (callProtoMethod s (jsKeyString x)).1 = s2 :=
            congrArg Prod.fst (Option.some.inj h)
          rw [← h2]
          exact callProtoMethod_frame s (jsKeyString x)
        · simp only [Option.some.injEq, Prod.mk.injEq] at h
          obtain ⟨h1, _⟩ := h
          subst h1
          exact evalFrame_refl _
      | some pid =>
        rw [hl] at h
        simp only at h
        cases hp : s.providers.get? pid with
        | none =>
          rw [hp] at h
          simp only [Option.some.injEq, Prod.mk.injEq] at h
          obtain ⟨h1, _⟩ := h
          subst h1
          exact evalFrame_refl _
        | some p =>
          rw [hp] at h
          simp only at h
          cases hc : p.alreadyCalled with
          | true =>
            rw [hc] at h
            simp only [if_true] at h
            simp only [Option.some.injEq, Prod.mk.injEq] at h
            obtain ⟨h1, _⟩ := h
            subst h1
            exact evalFrame_refl _
          | false =>
            rw [hc] at h
            simp only [Bool.false_eq_true, if_false] at h
            cases hb : evalStep n (setProviderCalled s pid) (.body p.kind) with
            | none => rw [hb] at h; simp at h
            | some pr =>
              obtain ⟨sb, rb⟩ := pr
              rw [hb] at h
              cases rb with
              | thrown e =>
                simp only [Option.some.injEq, Prod.mk.injEq] at h
                obtain ⟨h1, _⟩ := h
                subst h1
                exact evalFrame_trans (setProviderCalled_frame hp hc) (ih _ _ _ _ hb)
              | ok rr =>
                simp only [Option.some.injEq, Prod.mk.injEq] at h
                obtain ⟨h1, _⟩ := h
                subst h1
                have F := evalFrame_trans (setProviderCalled_frame hp hc) (ih _ _ _ _ hb)
                obtain ⟨f1, f2, f3, ⟨ext, f4⟩, f5⟩ := F
                refine ⟨?_, ?_, ?_, ⟨ext, ?_⟩, ?_⟩
                · rw [setProviderCached_storage]; exact f1
                · rw [setProviderCached_length]; exact f2
                · intro q pq hq hcq
                  have hqne : q ≠ pid := by
                    intro hqp
                    subst hqp
                    rw [hq] at hp
                    cases hp
                    rw [hcq] at hc
                    cases hc
                  rw [setProviderCached_get_ne _ _ _ hqne]
                  exact f3 q pq hq hcq
                · rw [setProviderCached_funcs]; exact f4
                · intro hi
                  exact setProviderCached_inv _ _ (f5 hi)
    | resL xs =>
      cases xs with
      | nil =>
        simp only [evalStep, Option.some.injEq, Prod.mk.injEq] at h
        obtain ⟨h1, _⟩ := h
        subst h1
        exact evalFrame_refl _
      | cons x rest =>
        simp only [evalStep] at h
        cases h1 : evalStep n s (.res x) with
        | none => rw [h1] at h; simp at h
        | some pr1 =>
          obtain ⟨sa, ra⟩ := pr1
          rw [h1] at h
          cases ra with
          | thrown e =>
            simp only [Option.some.injEq, Prod.mk.injEq] at h
            obtain ⟨hh, _⟩ := h
            subst hh
            exact ih _ _ _ _ h1
          | ok rr =>
            simp only at h
            cases h2 : evalStep n sa (.resL rest) with
            | none => rw [h2] at h; simp at h
            | some pr2 =>
              obtain ⟨sb2, rb2⟩ := pr2
              rw [h2] at h
              cases rb2 with
              | thrown e =>
                simp only [Option.some.injEq, Prod.mk.injEq] at h
                obtain ⟨hh, _⟩ := h
                subst hh
                exact evalFrame_trans (ih _ _ _ _ h1) (ih _ _ _ _ h2)
              | ok rr2 =>
                simp only [Option.some.injEq, Prod.mk.injEq] at h
                obtain ⟨hh, _⟩ := h
                subst hh
                exact evalFrame_trans (ih _ _ _ _ h1) (ih _ _ _ _ h2)
    | inj defn ctx =>
      simp only [evalStep] at h
      rcases hx : _extractProviderArray s defn with ⟨sx, jr⟩
      rw [hx] at h
      have hxc := extract_core s defn
      rw [hx] at hxc
      have Fx : EvalFrame s sx :=
        evalFrame_of_eqs hxc.1 hxc.2.1 ⟨[], by rw [hxc.2.2.1]; simp⟩
      cases jr with
      | thrown e =>
        simp only [Option.some.injEq, Prod.mk.injEq] at h
        obtain ⟨hh, _⟩ := h
        subst hh
        exact Fx
      | ok arrId =>
        simp only at h
        cases h1 : evalStep n sx (.resL (sx.arrays.getD arrId []).dropLast) with
        | none => rw [h1] at h; simp at h
        | some pr1 =>
          obtain ⟨sa, ra⟩ := pr1
          rw [h1] at h
          cases ra with
          | thrown e =>
            simp only [Option.some.injEq, Prod.mk.injEq] at h
            obtain ⟨hh, _⟩ := h
            subst hh
            exact evalFrame_trans Fx (ih _ _ _ _ h1)
          | ok rr =>
            simp only at h
            cases h2 : callFunc n sa ((sx.arrays.getD arrId []).getLast?.getD JSVal.undefined)
                ctx (resToVals rr) with
            | none => rw [h2] at h; simp at h
            | some pr2 =>
              obtain ⟨sb2, rb2⟩ := pr2
              rw [h2] at h
              have hcc := callFunc_core n sa _ ctx (resToVals rr) sb2 rb2 h2
              have Fc : EvalFrame sa sb2 :=
                evalFrame_of_eqs hcc.1 hcc.2.1 ⟨[], by rw [hcc.2.2.1]; simp⟩
              cases rb2 with
              | thrown e =>
                simp only [Option.some.injEq, Prod.mk.injEq] at h
                obtain ⟨hh, _⟩ := h
                subst hh
                exact evalFrame_trans (evalFrame_trans Fx (ih _ _ _ _ h1)) Fc
              | ok v =>
                simp only [Option.some.injEq, Prod.mk.injEq] at h
                obtain ⟨hh, _⟩ := h
                subst hh
                exact evalFrame_trans (evalFrame_trans Fx (ih _ _ _ _ h1)) Fc
    | body k =>
      cases k with
      | valueP v =>
        simp only [evalStep, Option.some.injEq, Prod.mk.injEq] at h
        obtain ⟨h1, _⟩ := h
        subst h1
        exact evalFrame_refl _
      | factoryP arrId =>
        simp only [evalStep] at h
        exact ih _ _ _ _ h
      | serviceP defn =>
        simp only [evalStep] at h
        rcases hx : _extractProviderArray s defn with ⟨sx, jr⟩
        rw [hx] at h
        have hxc := extract_core s defn
        rw [hx] at hxc
        have Fx : EvalFrame s sx :=
          evalFrame_of_eqs hxc.1 hxc.2.1 ⟨[], by rw [hxc.2.2.1]; simp⟩
        cases jr with
        | thrown e =>
          simp only [Option.some.injEq, Prod.mk.injEq] at h
          obtain ⟨hh, _⟩ := h
          subst hh
          exact Fx
        | ok arrId =>
          simp only at h
          split at h
          · rename_i fref hfv
            split at h
            · exact absurd h (by simp)
            · rename_i s6 e heq
              simp only [Option.some.injEq, Prod.mk.injEq] at h
              obtain ⟨hh, _⟩ := h
              subst hh
              refine evalFrame_trans (evalFrame_trans Fx ?_) (ih _ _ _ _ heq)
              exact evalFrame_of_eqs (by simp [setArr]) (by simp [setArr])
                ⟨[FuncDef.bound fref (setArr sx arrId (sx.arrays.getD arrId []).dropLast).objects.length],
                 by simp [setArr]⟩
            · rename_i s6 v heq
              simp only [Option.some.injEq, Prod.mk.injEq] at h
              obtain ⟨hh, _⟩ := h
              subst hh
              refine evalFrame_trans (evalFrame_trans Fx ?_) (ih _ _ _ _ heq)
              exact evalFrame_of_eqs (by simp [setArr]) (by simp [setArr])
                ⟨[FuncDef.bound fref (setArr sx arrId (sx.arrays.getD arrId []).dropLast).objects.length],
                 by simp [setArr]⟩
          · simp only [Option.some.injEq, Prod.mk.injEq] at h
            obtain ⟨hh, _⟩ := h
            subst hh
            refine evalFrame_trans Fx ?_
            exact evalFrame_of_eqs (by simp [setArr]) (by simp [setArr]) ⟨[], by simp [setArr]⟩

theorem providerOnceInv_congr {s s2 : State} (h : s2.providers = s.providers)
    (hinv : ProviderOnceInv s) : ProviderOnceInv s2 := by
  intro i p hp
  rw [h] at hp
  exact hinv i p hp

theorem providerOnceInv_addProvider {s : State} (h : ProviderOnceInv s)
    (k : ProviderKind) : ProviderOnceInv (addProvider s k).1 := by
  intro i p hp
  simp only [addProvider] at hp
  rcases Nat.lt_trichotomy i s.providers.length with hi | hi | hi
  · rw [List.get?_append hi] at hp
    exact h i p hp
  · subst hi
    rw [List.get?_concat_length] at hp
    cases hp
    simp
  · rw [List.get?_eq_none.mpr (by simp; omega)] at hp
    cases hp

theorem providerOnceInv_value {s : State} (h : ProviderOnceInv s)
    (name : String) (v : JSVal) : ProviderOnceInv (_value s name v) := by
  have := providerOnceInv_addProvider h (.valueP v)
  intro i p hp
  exact this i p hp

theorem providerOnceInv_service {s : State} (h : ProviderOnceInv s)
    (name : String) (defn : JSVal) : ProviderOnceInv (_service s name defn) := by
  have := providerOnceInv_addProvider h (.serviceP defn)
  intro i p hp
  exact this i p hp

theorem providerOnceInv_factory {s : State} (h : ProviderOnceInv s)
    (name : String) (defn : JSVal) : ProviderOnceInv (_factory s name defn).1 := by
  unfold _factory
  rcases hx : _extractProviderArray s defn with ⟨sx, jr⟩
  have hxc := extract_core s defn
  rw [hx] at hxc
  have hsx : ProviderOnceInv sx := providerOnceInv_congr hxc.2.1 h
  cases jr with
  | thrown e => exact hsx
  | ok arrId =>
    simp only
    have := providerOnceInv_addProvider hsx (.factoryP arrId)
    intro i p hp
    exact this i p hp

theorem providerOnceInv_runOp {s s2 : State} {fuel : Nat} {op : Op}
    (h : ProviderOnceInv s) (hr : runOp fuel s op = some s2) : ProviderOnceInv s2 := by
  cases op with
  | opValue n v =>
    simp only [runOp, Option.some.injEq] at hr
    subst hr
    exact providerOnceInv_value h n v
  | opFactory n d =>
    simp only [runOp, Option.some.injEq] at hr
    subst hr
    exact providerOnceInv_factory h n d
  | opService n d =>
    simp only [runOp, Option.some.injEq] at hr
    subst hr
    exact providerOnceInv_service h n d
  | opInject d =>
    simp only [runOp, _inject] at hr
    cases he : evalStep fuel s (.inj d none) with
    | none => rw [he] at hr; cases hr
    | some pr =>
      obtain ⟨sa, ra⟩ := pr
      rw [he] at hr
      simp only [Option.map_some', Option.some.injEq] at hr
      have hf := evalStep_frame fuel s (.inj d none) sa ra he
      have : sa = s2 := by
        rw [← hr]
      subst this
      exact hf.2.2.2.2 h

theorem providerOnceInv_runOps {fuel : Nat} :
    ∀ (ops : List Op) (s s2 : State), ProviderOnceInv s →
      runOps fuel s ops = some s2 → ProviderOnceInv s2 := by
  intro ops
  induction ops with
  | nil =>
    intro s s2 h hr
    simp only [runOps, Option.some.injEq] at hr
    subst hr
    exact h
  | cons op rest ih =>
    intro s s2 h hr
    simp only [runOps] at hr
    cases ho : runOp fuel s op with
    | none => rw [ho] at hr; cases hr
    | some s1 =>
      rw [ho] at hr
      exact ih s1 s2 (providerOnceInv_runOp h ho) hr

/-- C1: for every name registered via value, factory, or service, the wrapped
construction callback executes at most once across the store's lifetime.
First part: starting from any state whose provider closures satisfy the
call-once invariant (in particular a fresh store), after any sequence of
public operations every provider closure ever created has entered its
wrapped callback at most once.  Second part: once a provider's memoization
flag is set, resolving its name again returns the cached first result with
the state completely unchanged, so the callback is not re-invoked. -/
theorem C1_callback_at_most_once :
    (∀ (fuel : Nat) (ops : List Op) (s s2 : State),
        ProviderOnceInv s →
        runOps fuel s ops = some s2 →
        ∀ i p, s2.providers.get? i = some p → p.invocations ≤ 1)
    ∧
    (∀ (fuel : Nat) (s : State) (x : JSVal) (pid : Nat) (p : Provider),
        lookupStorage s.providerStorage (jsKeyString x) = some pid →
        s.providers.get? pid = some p →
        p.alreadyCalled = true →
        _resolve (fuel + 1) s x = some (s, .ok p.cachedResult)) := by
  constructor
  · intro fuel ops s s2 hinv hr i p hp
    exact (providerOnceInv_runOps ops s s2 hinv hr i p hp).1
  · intro fuel s x pid p hl hp hc
    unfold _resolve
    simp only [evalStep]
    rw [hl]
    simp only
    rw [hp]
    simp [hc, resToVal]

/-- Witness for C1 at concrete inputs: a store holding one function and one
dependency array, where registering the value userId and injecting it leaves
the created value provider with exactly one callback entry; and a provider
already marked called returns its cached result with the state unchanged. -/
theorem C1_callback_at_most_once_witness :
    (({ kind := .valueP (.num 7), alreadyCalled := true, cachedResult := .num 7,
        invocations := 1 } : Provider).invocations ≤ 1)
    ∧
    _resolve 4
      { providerStorage := [("a", 0)],
        providers := [{ kind := .valueP (.num 7), alreadyCalled := true,
                        cachedResult := .num 7, invocations := 1 }],
        objects := [[]], arrays := [], funcs := [], callCounts := [] }
      (.str "a")
    = some
      ({ providerStorage := [("a", 0)],
         providers := [{ kind := .valueP (.num 7), alreadyCalled := true,
                         cachedResult := .num 7, invocations := 1 }],
         objects := [[]], arrays := [], funcs := [], callCounts := [] },
       .ok (.num 7)) := by
  constructor
  · exact C1_callback_at_most_once.1 9
      [.opValue "a" (.num 7),
       .opInject (.arrRef 0)]
      { providerStorage := [], providers := [], objects := [[]],
        arrays := [[.str "a", .funcRef 0]],
        funcs := [.user ["a"] { assigns := [], result := .retA (.arg 0) }],
        callCounts := [0] }
      { providerStorage := [("a", 0)],
        providers := [{ kind := .valueP (.num 7), alreadyCalled := true,
                        cachedResult := .num 7, invocations := 1 }],
        objects := [[]], arrays := [[.str "a", .funcRef 0]],
        funcs := [.user ["a"] { assigns := [], result := .retA (.arg 0) }],
        callCounts := [1] }
      (by intro i p hp; simp [List.get?] at hp)
      (by decide)
      0
      { kind := .valueP (.num 7), alreadyCalled := true, cachedResult := .num 7,
        invocations := 1 }
      (by decide)
  · exact C1_callback_at_most_once.2 3
      { providerStorage := [("a", 0)],
        providers := [{ kind := .valueP (.num 7), alreadyCalled := true,
                        cachedResult := .num 7, invocations := 1 }],
        objects := [[]], arrays := [], funcs := [], callCounts := [] }
      (.str "a") 0
      { kind := .valueP (.num 7), alreadyCalled := true, cachedResult := .num 7,
        invocations := 1 }
      (by decide) (by decide) rfl

theorem getLast?_cons_concat (x fv : JSVal) (rest : List JSVal) :
    (x :: rest ++ [fv]).getLast? = some fv :=
  List.getLast?_concat _

theorem dropLast_cons_concat (x fv : JSVal) (rest : List JSVal) :
    (x :: rest ++ [fv]).dropLast = x :: rest :=
  List.dropLast_concat

/-- C4 counterexample: resolving the unregistered name toString does not
fail with the unknown-dependency error.  The plain storage object inherits
Object.prototype.toString through its prototype chain, so the read
_providerStorage of toString yields a function, the typeof check in
_resolve passes, and the inherited method is invoked as the provider,
returning the class string of the global receiver — the claim that every
unregistered name fails with the documented error is false at this input. -/
theorem C4_counterexample :
    (_resolve 3 initState (.str "toString")
      = some (initState, .ok (.str "[object global]")))
    ∧ ¬ (_resolve 3 initState (.str "toString")
      = some (initState, .thrown (unknownDepMsg "toString"))) :=
  ⟨by decide, by decide⟩

/-- C4 amended: resolving a name with no registered provider fails with the
unknown-dependency error whose message is exactly the documented convention
naming that dependency, provided the name does not collide with an inherited
function-valued property of Object.prototype (for a colliding name the read
of the plain storage object finds the inherited method and resolution
invokes it instead of failing); the state is unchanged, and when the
resolution is triggered from inject the same error propagates synchronously
to the inject call (again leaving the state unchanged). -/
theorem C4_unknown_dependency :
    ∀ (fuel : Nat) (s : State) (x : JSVal),
      lookupStorage s.providerStorage (jsKeyString x) = none →
      objectProtoFunctions.contains (jsKeyString x) = false →
      (_resolve (fuel + 1) s x
          = some (s, .thrown ("Provider for " ++ jsKeyString x ++ " failed")))
      ∧ (∀ (a : Nat) (rest : List JSVal) (f : Nat),
          s.arrays.get? a = some (x :: rest ++ [.funcRef f]) →
          _inject (fuel + 3) s (.arrRef a) none
            = some (s, .thrown ("Provider for " ++ jsKeyString x ++ " failed"))) := by
  intro fuel s x hl hpf
  have hmem : ¬ jsKeyString x ∈ objectProtoFunctions := by
    simpa using hpf
  have hres : _resolve (fuel + 1) s x
      = some (s, .thrown ("Provider for " ++ jsKeyString x ++ " failed")) := by
    unfold _resolve
    simp only [evalStep]
    rw [hl]
    simp [unknownDepMsg, hmem]
  refine ⟨hres, ?_⟩
  intro a rest f harr
  have hgetD : s.arrays.getD a [] = x :: rest ++ [.funcRef f] := by
    simp only [List.getD, List.get?_eq_getElem?] at harr ⊢
    simp [harr]
  unfold _inject
  simp only [evalStep, _extractProviderArray]
  rw [hgetD, getLast?_cons_concat]
  simp only
  rw [hgetD, dropLast_cons_concat, getLast?_cons_concat]
  simp only [evalStep]
  rw [hl]
  simp [unknownDepMsg, hmem]

/-- Witness for C4: in a store holding only a target function and the
dependency array userId before any registration — userId being no
Object.prototype property — resolving userId and injecting the array both
fail with the documented message naming userId. -/
theorem C4_unknown_dependency_witness :
    (_resolve 3
        { providerStorage := [], providers := [], objects := [[]],
          arrays := [[.str "userId", .funcRef 0]],
          funcs := [.user ["userId"] { assigns := [], result := .retA (.arg 0) }],
          callCounts := [0] }
        (.str "userId")
      = some
        ({ providerStorage := [], providers := [], objects := [[]],
           arrays := [[.str "userId", .funcRef 0]],
           funcs := [.user ["userId"] { assigns := [], result := .retA (.arg 0) }],
           callCounts := [0] },
         .thrown ("Provider for " ++ "userId" ++ " failed")))
    ∧
    (_inject 5
        { providerStorage := [], providers := [], objects := [[]],
          arrays := [[.str "userId", .funcRef 0]],
          funcs := [.user ["userId"] { assigns := [], result := .retA (.arg 0) }],
          callCounts := [0] }
        (.arrRef 0) none
      = some
        ({ providerStorage := [], providers := [], objects := [[]],
           arrays := [[.str "userId", .funcRef 0]],
           funcs := [.user ["userId"] { assigns := [], result := .retA (.arg 0) }],
           callCounts := [0] },
         .thrown ("Provider for " ++ "userId" ++ " failed"))) := by
  constructor
  · exact (C4_unknown_dependency 2
      { providerStorage := [], providers := [], objects := [[]],
        arrays := [[.str "userId", .funcRef 0]],
        funcs := [.user ["userId"] { assigns := [], result := .retA (.arg 0) }],
        callCounts := [0] }
      (.str "userId") rfl (by decide)).1
  · exact (C4_unknown_dependency 2
      { providerStorage := [], providers := [], objects := [[]],
        arrays := [[.str "userId", .funcRef 0]],
        funcs := [.user ["userId"] { assigns := [], result := .retA (.arg 0) }],
        callCounts := [0] }
      (.str "userId") rfl (by decide)).2 0 [] 0 (by decide)

theorem set_concat_length {α : Type} (l : List α) (a b : α) :
    (l ++ [a]).set l.length b = l ++ [b] := by
  induction l with
  | nil => rfl
  | cons x xs ih => simp [List.set, ih]

/-- Resolving a name immediately after _value registered it: the fresh
provider closure is invoked once, caches the given value, and the resolution
returns exactly that value; no other part of the state changes. -/
theorem evalStep_fresh_value (s : State) (name : String) (v : JSVal) (fuel : Nat) :
    evalStep (fuel + 2) (_value s name v) (.res (.str name))
      = some
        ({ s with
            providerStorage := (name, s.providers.length) :: s.providerStorage,
            providers := s.providers ++
              [{ kind := .valueP v, alreadyCalled := true, cachedResult := v,
                 invocations := 1 }] },
         .ok (.val v)) := by
  have hget : (s.providers ++
      [{ kind := .valueP v, alreadyCalled := false, cachedResult := .undefined,
         invocations := 0 }] : List Provider).get? s.providers.length
      = some { kind := .valueP v, alreadyCalled := false, cachedResult := .undefined,
               invocations := 0 } :=
    List.get?_concat_length _ _
  simp only [evalStep, _value, addProvider, _register, jsKeyString, lookupStorage,
    if_true, hget, Bool.false_eq_true, if_false, setProviderCalled, setProviderCached,
    set_concat_length, resToVal, List.get?_concat_length]

/-- Resolving a name whose provider closure has already been called returns
the cached result and leaves the state untouched. -/
theorem evalStep_called {s : State} {x : JSVal} {pid : Nat} {p : Provider}
    (hl : lookupStorage s.providerStorage (jsKeyString x) = some pid)
    (hp : s.providers.get? pid = some p)
    (hc : p.alreadyCalled = true) (fuel : Nat) :
    evalStep (fuel + 1) s (.res x) = some (s, .ok (.val p.cachedResult)) := by
  simp only [evalStep]
  rw [hl]
  simp only
  rw [hp]
  simp [hc]

theorem getLast?_pair (x y : JSVal) : ([x, y] : List JSVal).getLast? = some y := rfl

theorem dropLast_pair (x y : JSVal) : ([x, y] : List JSVal).dropLast = [x] := rfl

/-- Unfolding of one _inject step once the provider array has been
extracted: read the target function and the dependency names from the array,
resolve the names, then apply the target. -/
theorem inj_unfold (fuel : Nat) (s sx : State) (defn : JSVal) (ctx : Option Nat)
    (arrId : Nat) (l : List JSVal)
    (hx : _extractProviderArray s defn = (sx, .ok arrId))
    (hl : sx.arrays.getD arrId [] = l) :
    evalStep (fuel + 1) s (.inj defn ctx) =
      match evalStep fuel sx (.resL l.dropLast) with
      | none => none
      | some (s2, .thrown e) => some (s2, .thrown e)
      | some (s2, .ok r) =>
        match callFunc fuel s2 (l.getLast?.getD .undefined) ctx (resToVals r) with
        | none => none
        | some (s3, .thrown e) => some (s3, .thrown e)
        | some (s3, .ok v) => some (s3, .ok (.val v)) := by
  simp only [evalStep, hx, hl]

/-- Unfolding of one _inject step whose extraction throws: the error
propagates and the post-extraction state is returned. -/
theorem inj_unfold_thrown (fuel : Nat) (s sx : State) (defn : JSVal)
    (ctx : Option Nat) (e : String)
    (hx : _extractProviderArray s defn = (sx, .thrown e)) :
    evalStep (fuel + 1) s (.inj defn ctx) = some (sx, .thrown e) := by
  simp only [evalStep, hx]

/-- Resolving an empty dependency-name list yields no values. -/
theorem resL_nil (fuel : Nat) (s : State) :
    evalStep (fuel + 1) s (.resL []) = some (s, .ok (.vals [])) := by
  simp [evalStep]

/-- Resolving a dependency-name list whose head resolves normally continues
with the rest of the list from the post-resolution state. -/
theorem resL_cons_ok (fuel : Nat) (s s1 : State) (x : JSVal) (rest : List JSVal)
    (rv : Res) (h1 : evalStep fuel s (.res x) = some (s1, .ok rv)) :
    evalStep (fuel + 1) s (.resL (x :: rest)) =
      match evalStep fuel s1 (.resL rest) with
      | none => none
      | some (s2, .thrown e) => some (s2, .thrown e)
      | some (s2, .ok r2) => some (s2, .ok (.vals (resToVal rv :: (resToVals r2)))) := by
  simp only [evalStep, h1]

/-- Resolving a name whose provider closure has not been called yet: the
flag is set, the wrapped callback runs, and on normal return the value is
cached. -/
theorem res_uncalled_unfold (fuel : Nat) (s : State) (x : JSVal) (pid : Nat)
    (p : Provider)
    (hl : lookupStorage s.providerStorage (jsKeyString x) = some pid)
    (hp : s.providers.get? pid = some p)
    (hc : p.alreadyCalled = false) :
    evalStep (fuel + 1) s (.res x) =
      match evalStep fuel (setProviderCalled s pid) (.body p.kind) with
      | none => none
      | some (s2, .thrown e) => some (s2, .thrown e)
      | some (s2, .ok r) =>
        some (setProviderCached s2 pid (resToVal r), .ok (.val (resToVal r))) := by
  simp only [evalStep, hl, hp, hc, Bool.false_eq_true, if_false]

/-- The wrapped callback of a factory provider injects the captured array. -/
theorem body_factory (fuel : Nat) (s : State) (arrId : Nat) :
    evalStep (fuel + 1) s (.body (.factoryP arrId))
      = evalStep fuel s (.inj (.arrRef arrId) none) := by
  simp only [evalStep]

/-- Applying a user function: its body runs on the receiver. -/
theorem callFunc_user (fuel : Nat) (s : State) (f : Nat) (recv : Option Nat)
    (args : List JSVal) (ps : List String) (body : FuncBody)
    (hf : s.funcs.get? f = some (.user ps body)) :
    callFunc (fuel + 1) s (.funcRef f) recv args =
      (let s2 := runAssigns (bumpCount s f) (recv.getD 0) args body.assigns
       match body.result with
       | .retA ae => some (s2, .ok (evalA args (recv.getD 0) ae))
       | .retObj props =>
         some ({ s2 with objects :=
                   s2.objects ++ [props.map (fun kv => (kv.1, evalA args (recv.getD 0) kv.2))] },
               .ok (.objRef s2.objects.length))
       | .throwE m => some (s2, .thrown m)) := by
  simp only [callFunc, hf]

/-- Applying a bound function forwards to its target under the captured
context, ignoring the supplied receiver. -/
theorem callFunc_bound (fuel : Nat) (s : State) (b target ctx : Nat)
    (recv : Option Nat) (args : List JSVal)
    (hf : s.funcs.get? b = some (.bound target ctx)) :
    callFunc (fuel + 1) s (.funcRef b) recv args
      = callFunc fuel s (.funcRef target) (some ctx) args := by
  simp only [callFunc, hf]

/-- C2: after value(N, v), resolving N yields exactly the given value v (for
every value, including heap references, so objects are shared by reference),
without touching any other part of the state: no objects, arrays or function
heaps change and no user callable runs (callCounts unchanged).  Resolving
again returns the same value with the state unchanged, and injecting a spec
naming N passes exactly v to the target callable (observed by the callable
returning its first argument). -/
theorem C2_value_resolves_to_exact_value :
    ∀ (s : State) (name : String) (v : JSVal) (fuel : Nat),
      (∃ s2,
        _resolve (fuel + 2) (_value s name v) (.str name) = some (s2, .ok v) ∧
        _resolve (fuel + 1) s2 (.str name) = some (s2, .ok v) ∧
        s2.objects = s.objects ∧ s2.arrays = s.arrays ∧ s2.funcs = s.funcs ∧
        s2.callCounts = s.callCounts)
      ∧
      (∀ (a f : Nat) (ps : List String),
        s.arrays.get? a = some [.str name, .funcRef f] →
        s.funcs.get? f = some (.user ps { assigns := [], result := .retA (.arg 0) }) →
        ∃ s3, _inject (fuel + 4) (_value s name v) (.arrRef a) none = some (s3, .ok v)) := by
  intro s name v fuel
  constructor
  · refine ⟨{ s with
        providerStorage := (name, s.providers.length) :: s.providerStorage,
        providers := s.providers ++
          [{ kind := .valueP v, alreadyCalled := true, cachedResult := v,
             invocations := 1 }] }, ?_, ?_, rfl, rfl, rfl, rfl⟩
    · unfold _resolve
      rw [evalStep_fresh_value]
      simp [resToVal]
    · unfold _resolve
      have hl2 : lookupStorage (({ s with
          providerStorage := (name, s.providers.length) :: s.providerStorage,
          providers := s.providers ++
            [{ kind := .valueP v, alreadyCalled := true, cachedResult := v,
               invocations := 1 }] } : State)).providerStorage
          (jsKeyString (.str name)) = some s.providers.length := by
        simp [lookupStorage, jsKeyString]
      have hp2 : (({ s with
          providerStorage := (name, s.providers.length) :: s.providerStorage,
          providers := s.providers ++
            [{ kind := .valueP v, alreadyCalled := true, cachedResult := v,
               invocations := 1 }] } : State)).providers.get? s.providers.length
          = some { kind := .valueP v, alreadyCalled := true, cachedResult := v,
                   invocations := 1 } :=
        List.get?_concat_length _ _
      rw [evalStep_called hl2 hp2 rfl]
      simp [resToVal]
  · intro a f ps harr hfun
    have hgetD : (_value s name v).arrays.getD a [] = [JSVal.str name, JSVal.funcRef f] := by
      simp only [_value, addProvider, _register]
      simp only [List.getD, List.get?_eq_getElem?] at harr ⊢
      simp [harr]
    have e1 : _extractProviderArray (_value s name v) (.arrRef a)
        = (_value s name v, .ok a) := by
      simp only [_extractProviderArray, hgetD]
      rfl
    refine ⟨{ s with
        providerStorage := (name, s.providers.length) :: s.providerStorage,
        providers := s.providers ++
          [{ kind := .valueP v, alreadyCalled := true, cachedResult := v,
             invocations := 1 }],
        callCounts := s.callCounts.set f (s.callCounts.getD f 0 + 1) }, ?_⟩
    unfold _inject
    rw [show fuel + 4 = fuel + 3 + 1 from rfl,
        inj_unfold (fuel + 3) _ _ _ _ _ _ e1 hgetD]
    rw [dropLast_pair]
    rw [show fuel + 3 = fuel + 2 + 1 from rfl,
        resL_cons_ok (fuel + 2) _ _ _ _ _ (evalStep_fresh_value s name v fuel)]
    rw [show fuel + 2 = fuel + 1 + 1 from rfl, resL_nil]
    simp only [resToVal, resToVals]
    rw [getLast?_pair]
    simp only [Option.getD]
    have hfunS : ({ s with
        providerStorage := (name, s.providers.length) :: s.providerStorage,
        providers := s.providers ++
          [{ kind := .valueP v, alreadyCalled := true, cachedResult := v,
             invocations := 1 }] } : State).funcs.get? f
        = some (.user ps { assigns := [], result := .retA (.arg 0) }) := hfun
    rw [callFunc_user _ _ f none [v] ps _ hfunS]
    simp [runAssigns, evalA, bumpCount, resToVal]

/-- Witness for C2 at concrete inputs: registering userId as 123 and
injecting the spec array userId into a function returning its first argument
yields 123. -/
theorem C2_value_resolves_to_exact_value_witness :
    ∃ s3, _inject (5 + 4)
        (_value
          { providerStorage := [], providers := [], objects := [[]],
            arrays := [[.str "userId", .funcRef 0]],
            funcs := [.user ["userId"] { assigns := [], result := .retA (.arg 0) }],
            callCounts := [0] }
          "userId" (.num 123))
        (.arrRef 0) none
      = some (s3, .ok (.num 123)) :=
  (C2_value_resolves_to_exact_value
    { providerStorage := [], providers := [], objects := [[]],
      arrays := [[.str "userId", .funcRef 0]],
      funcs := [.user ["userId"] { assigns := [], result := .retA (.arg 0) }],
      callCounts := [0] }
    "userId" (.num 123) 5).2 0 0 ["userId"] (by decide) (by decide)

/-- C7: a later registration under the same name silently overwrites the
earlier entry: after value(N, v) is registered and resolved, re-registering
value(N, w) installs a fresh provider closure with fresh memoization state
(alreadyCalled false, nothing cached, never invoked), and resolving N now
yields w instead of v. -/
theorem C7_reregistration_overwrites :
    ∀ (s : State) (name : String) (v w : JSVal) (fuel : Nat),
      ∃ s1 s2,
        _resolve (fuel + 2) (_value s name v) (.str name) = some (s1, .ok v) ∧
        lookupStorage (_value s1 name w).providerStorage name
          = some s1.providers.length ∧
        (_value s1 name w).providers.get? s1.providers.length
          = some { kind := .valueP w, alreadyCalled := false,
                   cachedResult := .undefined, invocations := 0 } ∧
        _resolve (fuel + 2) (_value s1 name w) (.str name) = some (s2, .ok w) := by
  intro s name v w fuel
  refine ⟨{ s with
      providerStorage := (name, s.providers.length) :: s.providerStorage,
      providers := s.providers ++
        [{ kind := .valueP v, alreadyCalled := true, cachedResult := v,
           invocations := 1 }] },
    { ({ s with
        providerStorage := (name, s.providers.length) :: s.providerStorage,
        providers := s.providers ++
          [{ kind := .valueP v, alreadyCalled := true, cachedResult := v,
             invocations := 1 }] } : State) with
      providerStorage := (name, (({ s with
        providerStorage := (name, s.providers.length) :: s.providerStorage,
        providers := s.providers ++
          [{ kind := .valueP v, alreadyCalled := true, cachedResult := v,
             invocations := 1 }] } : State)).providers.length) ::
        (({ s with
        providerStorage := (name, s.providers.length) :: s.providerStorage,
        providers := s.providers ++
          [{ kind := .valueP v, alreadyCalled := true, cachedResult := v,
             invocations := 1 }] } : State)).providerStorage,
      providers := (({ s with
        providerStorage := (name, s.providers.length) :: s.providerStorage,
        providers := s.providers ++
          [{ kind := .valueP v, alreadyCalled := true, cachedResult := v,
             invocations := 1 }] } : State)).providers ++
        [{ kind := .valueP w, alreadyCalled := true, cachedResult := w,
           invocations := 1 }] }, ?_, ?_, ?_, ?_⟩
  · unfold _resolve
    rw [evalStep_fresh_value]
    simp [resToVal]
  · simp [_value, _register, addProvider, lookupStorage]
  · simp only [_value, _register, addProvider]
    exact List.get?_concat_length _ _
  · unfold _resolve
    rw [evalStep_fresh_value]
    simp [resToVal]

theorem extract_bad {s : State} {d : JSVal} (h : isBadSpec s d = true) :
    _extractProviderArray s d = (s, .thrown invalidSpecMsg) := by
  cases d with
  | arrRef a =>
    simp only [isBadSpec] at h
    simp only [_extractProviderArray]
    cases hl : (s.arrays.getD a []).getLast? with
    | none => rfl
    | some x =>
      rw [hl] at h
      cases x <;> simp_all
  | funcRef f => simp [isBadSpec] at h
  | undefined => rfl
  | boolean b => rfl
  | num n => rfl
  | str t => rfl
  | objRef o => rfl

theorem isBadSpec_arrays_congr {s s2 : State} {d : JSVal}
    (h : s2.arrays = s.arrays) : isBadSpec s2 d = isBadSpec s d := by
  cases d <;> simp [isBadSpec, h]

/-- The wrapped callback of a service provider whose captured definition
fails extraction throws at first invocation. -/
theorem body_service_thrown (fuel : Nat) (s sx : State) (defn : JSVal) (e : String)
    (hx : _extractProviderArray s defn = (sx, .thrown e)) :
    evalStep (fuel + 1) s (.body (.serviceP defn)) = some (sx, .thrown e) := by
  simp only [evalStep, hx]

/-- C5 counterexample: passing the invalid specification 0 to service does
not raise anything from the registration call (service registrations are
total) and the store is changed by the call, the provider for the name being
installed; the InvalidSpecification error is only thrown later, at the first
resolution of the name.  This contradicts the claim that the call raises
immediately and that no partial registration occurs. -/
theorem C5_counterexample :
    (_service initState "a" (.num 0)).providerStorage ≠ initState.providerStorage
    ∧ (_service initState "a" (.num 0)).providerStorage = [("a", 0)]
    ∧ _resolve 5 (_service initState "a" (.num 0)) (.str "a")
        = some (setProviderCalled (_service initState "a" (.num 0)) 0,
                .thrown invalidSpecMsg) := by
  refine ⟨by decide, by decide, by decide⟩

/-- C5 amended: with a specification that is neither an array ending in a
callable nor a bare callable, factory and inject raise InvalidSpecification
immediately and leave the state unchanged, but service accepts it: the call
registers a provider under the name (overwriting any previous entry) and the
InvalidSpecification error is raised only at the first resolution of that
name. -/
theorem C5_invalid_specification :
    ∀ (s : State) (name : String) (defn : JSVal) (fuel : Nat) (ctx : Option Nat),
      isBadSpec s defn = true →
      _factory s name defn = (s, .thrown invalidSpecMsg)
      ∧ _inject (fuel + 1) s defn ctx = some (s, .thrown invalidSpecMsg)
      ∧ lookupStorage (_service s name defn).providerStorage name
          = some s.providers.length
      ∧ _resolve (fuel + 2) (_service s name defn) (.str name)
          = some (setProviderCalled (_service s name defn) s.providers.length,
                  .thrown invalidSpecMsg) := by
  intro s name defn fuel ctx hbad
  refine ⟨?_, ?_, ?_, ?_⟩
  · unfold _factory
    rw [extract_bad hbad]
  · unfold _inject
    rw [inj_unfold_thrown fuel _ _ _ _ _ (extract_bad hbad)]
    rfl
  · simp [_service, _register, addProvider, lookupStorage]
  · have hget : (_service s name defn).providers.get? s.providers.length
        = some { kind := .serviceP defn, alreadyCalled := false,
                 cachedResult := .undefined, invocations := 0 } := by
      simp only [_service, _register, addProvider]
      exact List.get?_concat_length _ _
    have hlook : lookupStorage (_service s name defn).providerStorage
        (jsKeyString (.str name)) = some s.providers.length := by
      simp [_service, _register, addProvider, lookupStorage, jsKeyString]
    have hbad2 : isBadSpec (setProviderCalled (_service s name defn)
        s.providers.length) defn = true := by
      have hac : (setProviderCalled (_service s name defn)
          s.providers.length).arrays = s.arrays := by
        unfold setProviderCalled
        cases hq : (_service s name defn).providers.get? s.providers.length <;>
          simp [_service, _register, addProvider]
      rw [isBadSpec_arrays_congr hac]
      exact hbad
    unfold _resolve
    rw [res_uncalled_unfold (fuel + 1) _ _ _ _ hlook hget rfl]
    rw [show fuel + 1 = fuel + 0 + 1 from rfl,
        body_service_thrown _ _ _ _ _ (extract_bad hbad2)]
    rfl

/-- Witness for C5 at the concrete invalid specification 0. -/
theorem C5_invalid_specification_witness :
    _factory initState "a" (.num 0) = (initState, .thrown invalidSpecMsg)
    ∧ _inject (0 + 1) initState (.num 0) none
        = some (initState, .thrown invalidSpecMsg)
    ∧ lookupStorage (_service initState "a" (.num 0)).providerStorage "a"
        = some initState.providers.length
    ∧ _resolve (0 + 2) (_service initState "a" (.num 0)) (.str "a")
        = some (setProviderCalled (_service initState "a" (.num 0))
                  initState.providers.length,
                .thrown invalidSpecMsg) :=
  C5_invalid_specification initState "a" (.num 0) 0 none (by decide)

/-- C6 counterexample: a factory whose callable throws on first resolution
does not retry construction on the next resolution.  The first resolution
propagates the thrown error, but the memoization flag was set before the
callback ran, so the second resolution returns the cached undefined without
re-invoking the callable: the call count of the callable stays at 1 and the
provider records exactly one callback entry.  This contradicts the claim
that a later resolution retries construction from scratch. -/
theorem C6_counterexample :
    _resolve 9
        (_factory
          { providerStorage := [], providers := [], objects := [[]],
            arrays := [[.funcRef 0]],
            funcs := [.user [] { assigns := [], result := .throwE "boom" }],
            callCounts := [0] }
          "a" (.arrRef 0)).1
        (.str "a")
      = some
        ({ providerStorage := [("a", 0)],
           providers := [{ kind := .factoryP 0, alreadyCalled := true,
                           cachedResult := .undefined, invocations := 1 }],
           objects := [[]], arrays := [[.funcRef 0]],
           funcs := [.user [] { assigns := [], result := .throwE "boom" }],
           callCounts := [1] },
         .thrown "boom")
    ∧ _resolve 9
        { providerStorage := [("a", 0)],
          providers := [{ kind := .factoryP 0, alreadyCalled := true,
                          cachedResult := .undefined, invocations := 1 }],
          objects := [[]], arrays := [[.funcRef 0]],
          funcs := [.user [] { assigns := [], result := .throwE "boom" }],
          callCounts := [1] }
        (.str "a")
      = some
        ({ providerStorage := [("a", 0)],
           providers := [{ kind := .factoryP 0, alreadyCalled := true,
                           cachedResult := .undefined, invocations := 1 }],
           objects := [[]], arrays := [[.funcRef 0]],
           funcs := [.user [] { assigns := [], result := .throwE "boom" }],
           callCounts := [1] },
         .ok .undefined) := by
  refine ⟨by decide, by decide⟩

/-- C6 amended: when a provider's construction callback throws on first
resolution, the failure propagates unchanged to the caller, but the
memoization flag was already set before the callback ran, so the provider IS
marked complete with nothing cached: a later resolution of the same name
returns the cached undefined without re-invoking the callback, rather than
retrying construction. -/
theorem C6_throwing_provider_not_retried :
    ∀ (fuel k : Nat) (s s2 : State) (x : JSVal) (pid : Nat) (p : Provider)
      (e : String),
      lookupStorage s.providerStorage (jsKeyString x) = some pid →
      s.providers.get? pid = some p →
      p.alreadyCalled = false →
      p.cachedResult = .undefined →
      _resolve (fuel + 1) s x = some (s2, .thrown e) →
      (s2.providers.get? pid
        = some { p with alreadyCalled := true, invocations := p.invocations + 1 }
      ∧ lookupStorage s2.providerStorage (jsKeyString x) = some pid
      ∧ _resolve (k + 1) s2 x = some (s2, .ok .undefined)) := by
  intro fuel k s s2 x pid p e hl hp hc hcr hres
  have hlt : pid < s.providers.length := (List.get?_eq_some.mp hp).1
  have hgets1 : (setProviderCalled s pid).providers.get? pid
      = some { p with alreadyCalled := true, invocations := p.invocations + 1 } := by
    unfold setProviderCalled
    rw [hp]
    simp only
    exact (List.get?_set_eq_of_lt _ (by simpa using hlt))
  unfold _resolve at hres
  rw [res_uncalled_unfold fuel s x pid p hl hp hc] at hres
  cases hb : evalStep fuel (setProviderCalled s pid) (.body p.kind) with
  | none =>
    rw [hb] at hres
    simp at hres
  | some pr =>
    obtain ⟨sb, rb⟩ := pr
    rw [hb] at hres
    cases rb with
    | ok rr => simp at hres
    | thrown e2 =>
      simp only [Option.map_some', Option.some.injEq, Prod.mk.injEq] at hres
      obtain ⟨hs, he⟩ := hres
      subst hs
      have F := evalStep_frame fuel (setProviderCalled s pid) (.body p.kind) sb _ hb
      have hgets2 : sb.providers.get? pid
          = some { p with alreadyCalled := true, invocations := p.invocations + 1 } :=
        F.2.2.1 pid _ hgets1 rfl
      have hstor : sb.providerStorage = (setProviderCalled s pid).providerStorage :=
        F.1
      have hstor2 : lookupStorage sb.providerStorage (jsKeyString x) = some pid := by
        rw [hstor]
        have hsp : (setProviderCalled s pid).providerStorage = s.providerStorage := by
          unfold setProviderCalled
          cases s.providers.get? pid <;> rfl
        rw [hsp]
        exact hl
      refine ⟨hgets2, hstor2, ?_⟩
      unfold _resolve
      rw [evalStep_called hstor2 hgets2 rfl k]
      simp only [Option.map_some']
      have hcu : ({ p with alreadyCalled := true, invocations := p.invocations + 1 } : Provider).cachedResult = JSVal.undefined := by
        simp [hcr]
      simp [resToVal, hcu, hcr]

/-- Witness for C6 amended at the concrete throwing factory. -/
theorem C6_throwing_provider_not_retried_witness :
    ({ providerStorage := [("a", 0)],
       providers := [{ kind := .factoryP 0, alreadyCalled := true,
                       cachedResult := .undefined, invocations := 1 }],
       objects := [[]], arrays := [[.funcRef 0]],
       funcs := [.user [] { assigns := [], result := .throwE "boom" }],
       callCounts := [1] } : State).providers.get? 0
      = some { kind := .factoryP 0, alreadyCalled := true,
               cachedResult := .undefined, invocations := 0 + 1 }
    ∧ lookupStorage ([("a", 0)] : List (String × Nat)) (jsKeyString (.str "a"))
        = some 0
    ∧ _resolve (3 + 1)
        { providerStorage := [("a", 0)],
          providers := [{ kind := .factoryP 0, alreadyCalled := true,
                          cachedResult := .undefined, invocations := 1 }],
          objects := [[]], arrays := [[.funcRef 0]],
          funcs := [.user [] { assigns := [], result := .throwE "boom" }],
          callCounts := [1] }
        (.str "a")
      = some
        ({ providerStorage := [("a", 0)],
           providers := [{ kind := .factoryP 0, alreadyCalled := true,
                           cachedResult := .undefined, invocations := 1 }],
           objects := [[]], arrays := [[.funcRef 0]],
           funcs := [.user [] { assigns := [], result := .throwE "boom" }],
           callCounts := [1] },
         .ok .undefined) := by
  have h := C6_throwing_provider_not_retried 8 3
    (_factory
      { providerStorage := [], providers := [], objects := [[]],
        arrays := [[.funcRef 0]],
        funcs := [.user [] { assigns := [], result := .throwE "boom" }],
        callCounts := [0] }
      "a" (.arrRef 0)).1
    { providerStorage := [("a", 0)],
      providers := [{ kind := .factoryP 0, alreadyCalled := true,
                      cachedResult := .undefined, invocations := 1 }],
      objects := [[]], arrays := [[.funcRef 0]],
      funcs := [.user [] { assigns := [], result := .throwE "boom" }],
      callCounts := [1] }
    (.str "a") 0
    { kind := .factoryP 0, alreadyCalled := false, cachedResult := .undefined,
      invocations := 0 }
    "boom" (by decide) (by decide) (by decide) (by decide) (by decide)
  exact h

theorem mkToList (p : String) : String.mk p.toList = p := rfl

theorem splitCommaL_ne_nil : ∀ l : List Char, splitCommaL l ≠ [] := by
  intro l
  induction l with
  | nil => simp [splitCommaL]
  | cons c cs ih =>
    simp only [splitCommaL]
    by_cases hc : c = ','
    · simp [hc]
    · simp only [hc, if_false]
      cases hs : splitCommaL cs with
      | nil => exact absurd hs ih
      | cons g gs => simp

theorem splitCommaL_no_comma : ∀ l : List Char, (∀ c ∈ l, c ≠ ',') →
    splitCommaL l = [l] := by
  intro l
  induction l with
  | nil => intro h; rfl
  | cons c cs ih =>
    intro h
    have hc : c ≠ ',' := h c (by simp)
    have ihcs := ih (fun d hd => h d (by simp [hd]))
    simp [splitCommaL, hc, ihcs]

theorem splitCommaL_append : ∀ (l rest : List Char) (g : List Char)
    (gs : List (List Char)), (∀ c ∈ l, c ≠ ',') →
    splitCommaL rest = g :: gs →
    splitCommaL (l ++ rest) = (l ++ g) :: gs := by
  intro l
  induction l with
  | nil => intro rest g gs _ hr; simpa using hr
  | cons c cs ih =>
    intro rest g gs h hr
    have hc : c ≠ ',' := h c (by simp)
    have ihr := ih rest g gs (fun d hd => h d (by simp [hd])) hr
    simp [splitCommaL, hc, ihr]

theorem scanToRParen_clean : ∀ (l rest : List Char),
    (∀ c ∈ l, c ≠ ')' ∧ c ≠ '\n' ∧ c ≠ '\r') →
    scanToRParen (l ++ ')' :: rest) = some (l ++ [')']) := by
  intro l
  induction l with
  | nil => intro rest _; simp [scanToRParen]
  | cons c cs ih =>
    intro rest h
    obtain ⟨h1, h2, h3⟩ := h c (by simp)
    have ihr := ih rest (fun d hd => h d (by simp [hd]))
    simp [scanToRParen, h1, h2, h3, ihr]

theorem joinParams_mem : ∀ (ps : List String) (c : Char), c ∈ joinParams ps →
    c = ',' ∨ ∃ p, p ∈ ps ∧ c ∈ p.toList := by
  intro ps
  induction ps with
  | nil => intro c hc; simp [joinParams] at hc
  | cons p rest ih =>
    intro c hc
    cases rest with
    | nil =>
      simp only [joinParams] at hc
      exact Or.inr ⟨p, by simp, hc⟩
    | cons q qs =>
      simp only [joinParams, List.mem_append, List.mem_cons] at hc
      rcases hc with hc | hc | hc
      · exact Or.inr ⟨p, by simp, hc⟩
      · exact Or.inl hc
      · rcases ih c hc with h | ⟨r, hr, hcr⟩
        · exact Or.inl h
        · exact Or.inr ⟨r, by simp [hr], hcr⟩

theorem matchParens_functionSrc : ∀ (mid rest : List Char),
    (∀ c ∈ mid, c ≠ ')' ∧ c ≠ '\n' ∧ c ≠ '\r') →
    matchParens ("function (".toList ++ (mid ++ ')' :: rest))
      = some ('(' :: (mid ++ [')'])) := by
  intro mid rest h
  have hpre : "function (".toList
      = ['f', 'u', 'n', 'c', 't', 'i', 'o', 'n', ' ', '('] := rfl
  rw [hpre]
  simp [matchParens, scanToRParen_clean mid rest h]

theorem stripParenWs_clean (mid : List Char)
    (h : ∀ c ∈ mid, c ≠ '(' ∧ c ≠ ')' ∧ isJsSpace c = false) :
    stripParenWs ('(' :: (mid ++ [')'])) = mid := by
  unfold stripParenWs
  simp only [List.filter_cons, List.filter_append]
  have h1 : (decide ¬('(' = '(' ∨ '(' = ')' ∨ isJsSpace '(' = true)) = false := by
    decide
  have h2 : List.filter
      (fun c => decide ¬(c = '(' ∨ c = ')' ∨ isJsSpace c = true)) [')'] = [] := by
    decide
  have h3 : List.filter
      (fun c => decide ¬(c = '(' ∨ c = ')' ∨ isJsSpace c = true)) mid = mid := by
    rw [List.filter_eq_self]
    intro c hc
    obtain ⟨hc1, hc2, hc3⟩ := h c hc
    simp [hc1, hc2, hc3]
  simp_all

theorem splitCommaL_joinParams : ∀ (ps : List String), ps ≠ [] →
    (∀ p ∈ ps, ∀ c ∈ p.toList, c ≠ ',') →
    splitCommaL (joinParams ps) = ps.map String.toList := by
  intro ps
  induction ps with
  | nil => intro h; exact absurd rfl h
  | cons p rest ih =>
    intro _ h
    cases rest with
    | nil =>
      simp only [joinParams, List.map]
      exact splitCommaL_no_comma p.toList (h p (by simp))
    | cons q qs =>
      have hrest := ih (by simp) (fun r hr => h r (by simp [List.mem_cons] at hr ⊢; tauto))
      have hj : joinParams (p :: q :: qs) = p.toList ++ ',' :: joinParams (q :: qs) := rfl
      rw [hj]
      have hsplit : splitCommaL (',' :: joinParams (q :: qs))
          = [] :: splitCommaL (joinParams (q :: qs)) := by
        simp [splitCommaL]
      rw [splitCommaL_append p.toList (',' :: joinParams (q :: qs)) []
        (splitCommaL (joinParams (q :: qs))) (h p (by simp)) hsplit]
      rw [hrest]
      simp

/-- C8: a bare callable passed as a specification has its declared parameter
names introspected from its source text, in declared order, and
_extractProviderArray allocates a fresh dependency array of exactly those
names followed by the callable itself; a callable with zero declared
parameters yields an empty dependency list.  The parameter-name hypotheses
say the names are ordinary identifiers: nonempty, with no parentheses,
commas or whitespace. -/
theorem C8_bare_callable_introspection :
    ∀ (s : State) (f : Nat) (ps : List String) (body : FuncBody),
      s.funcs.get? f = some (.user ps body) →
      (∀ p ∈ ps, p ≠ "" ∧ ∀ c ∈ p.toList,
          c ≠ '(' ∧ c ≠ ')' ∧ c ≠ ',' ∧ isJsSpace c = false) →
      _getFuncArgs (funcSourceChars s f) = some ps
      ∧ _extractProviderArray s (.funcRef f)
          = ({ s with arrays := s.arrays ++ [ps.map JSVal.str ++ [JSVal.funcRef f]] },
             .ok s.arrays.length) := by
  intro s f ps body hf hps
  have hsrc : funcSourceChars s f = userFuncSource ps := by
    unfold funcSourceChars
    rw [hf]
  have hmid : ∀ c ∈ joinParams ps, c ≠ ')' ∧ c ≠ '\n' ∧ c ≠ '\r' := by
    intro c hc
    rcases joinParams_mem ps c hc with h | ⟨p, hp, hcp⟩
    · subst h
      refine ⟨by decide, by decide, by decide⟩
    · obtain ⟨_, h2, _, h4⟩ := (hps p hp).2 c hcp
      refine ⟨h2, ?_, ?_⟩
      · intro hn
        subst hn
        simp [isJsSpace] at h4
      · intro hn
        subst hn
        simp [isJsSpace] at h4
  have hclean : ∀ c ∈ joinParams ps, c ≠ '(' ∧ c ≠ ')' ∧ isJsSpace c = false := by
    intro c hc
    rcases joinParams_mem ps c hc with h | ⟨p, hp, hcp⟩
    · subst h
      refine ⟨by decide, by decide, by decide⟩
    · obtain ⟨h1, h2, _, h4⟩ := (hps p hp).2 c hcp
      exact ⟨h1, h2, h4⟩
  have hufs : userFuncSource ps
      = "function (".toList ++ (joinParams ps ++ ')' :: [' ', '\x7b', '\x7d']) := by
    show "function (".toList ++ joinParams ps ++ ") \x7b\x7d".toList = _
    rw [List.append_assoc]
    rfl
  have hmatch : matchParens (userFuncSource ps)
      = some ('(' :: (joinParams ps ++ [')'])) := by
    rw [hufs]
    exact matchParens_functionSrc (joinParams ps) [' ', '\x7b', '\x7d'] hmid
  have hargs : _getFuncArgs (funcSourceChars s f) = some ps := by
    rw [hsrc]
    unfold _getFuncArgs
    rw [hmatch]
    simp only [Option.map_some', Option.some.injEq]
    rw [stripParenWs_clean (joinParams ps) hclean]
    cases hpsnil : ps with
    | nil => rfl
    | cons p0 rest0 =>
      rw [← hpsnil]
      rw [splitCommaL_joinParams ps (by simp [hpsnil])
        (fun p hp c hc => ((hps p hp).2 c hc).2.2.1)]
      rw [List.map_map]
      have hmk : (String.mk ∘ String.toList) = id := by
        funext t
        exact mkToList t
      rw [hmk, List.map_id]
      rw [List.filter_eq_self.mpr]
      intro p hp
      simpa using (hps p hp).1
  refine ⟨hargs, ?_⟩
  simp only [_extractProviderArray, hargs]

/-- Witness for C8: a function declared with parameters alpha and beta has
exactly those names introspected in order, and a zero-parameter function
yields an empty dependency list. -/
theorem C8_bare_callable_introspection_witness :
    (_getFuncArgs (funcSourceChars
        { providerStorage := [], providers := [], objects := [[]], arrays := [],
          funcs := [.user ["alpha", "beta"] { assigns := [], result := .retA (.arg 0) }],
          callCounts := [0] } 0)
      = some ["alpha", "beta"])
    ∧ (_getFuncArgs (funcSourceChars
        { providerStorage := [], providers := [], objects := [[]], arrays := [],
          funcs := [.user [] { assigns := [], result := .retA (.lit .undefined) }],
          callCounts := [0] } 0)
      = some []) := by
  constructor
  · exact (C8_bare_callable_introspection
      { providerStorage := [], providers := [], objects := [[]], arrays := [],
        funcs := [.user ["alpha", "beta"] { assigns := [], result := .retA (.arg 0) }],
        callCounts := [0] }
      0 ["alpha", "beta"] { assigns := [], result := .retA (.arg 0) }
      (by decide) (by decide)).1
  · exact (C8_bare_callable_introspection
      { providerStorage := [], providers := [], objects := [[]], arrays := [],
        funcs := [.user [] { assigns := [], result := .retA (.lit .undefined) }],
        callCounts := [0] }
      0 [] { assigns := [], result := .retA (.lit .undefined) }
      (by decide) (by decide)).1

theorem setProviderCalled_storage (s : State) (pid : Nat) :
    (setProviderCalled s pid).providerStorage = s.providerStorage := by
  unfold setProviderCalled
  cases s.providers.get? pid <;> rfl

theorem setProviderCalled_funcs (s : State) (pid : Nat) :
    (setProviderCalled s pid).funcs = s.funcs := by
  unfold setProviderCalled
  cases s.providers.get? pid <;> rfl

theorem setProviderCalled_arrays (s : State) (pid : Nat) :
    (setProviderCalled s pid).arrays = s.arrays := by
  unfold setProviderCalled
  cases s.providers.get? pid <;> rfl

theorem setProviderCached_arrays (s : State) (pid : Nat) (v : JSVal) :
    (setProviderCached s pid v).arrays = s.arrays := by
  unfold setProviderCached
  cases s.providers.get? pid <;> rfl

theorem setProviderCalled_get_ne (s : State) (pid : Nat) {q : Nat} (hqp : q ≠ pid) :
    (setProviderCalled s pid).providers.get? q = s.providers.get? q := by
  unfold setProviderCalled
  cases s.providers.get? pid with
  | none => rfl
  | some p =>
    simp only
    exact List.get?_set_ne _ _ (fun a => hqp a.symm)

/-- Extraction of an array specification whose last element is a function
returns the same array id with the state unchanged. -/
theorem extract_arr_ok {s : State} {a : Nat} {l : List JSVal} {f : Nat}
    (h : s.arrays.getD a [] = l) (hl : l.getLast? = some (.funcRef f)) :
    _extractProviderArray s (.arrRef a) = (s, .ok a) := by
  simp only [_extractProviderArray, h, hl]

/-- The wrapped callback of a value provider returns the captured value. -/
theorem body_value (fuel : Nat) (s : State) (v : JSVal) :
    evalStep (fuel + 1) s (.body (.valueP v)) = some (s, .ok (.val v)) := by
  simp [evalStep]

/-- Resolving a name bound to a not-yet-called value provider marks it called
and caches and returns the captured value. -/
theorem res_value_uncalled (fuel : Nat) (s : State) (x : JSVal) (pid : Nat)
    (p : Provider) (v : JSVal)
    (hl : lookupStorage s.providerStorage (jsKeyString x) = some pid)
    (hp : s.providers.get? pid = some p)
    (hk : p.kind = .valueP v) (hc : p.alreadyCalled = false) :
    evalStep (fuel + 2) s (.res x)
      = some (setProviderCached (setProviderCalled s pid) pid v, .ok (.val v)) := by
  rw [show fuel + 2 = fuel + 1 + 1 from rfl,
      res_uncalled_unfold (fuel + 1) s x pid p hl hp hc, hk,
      show fuel + 1 = fuel + 0 + 1 from rfl, body_value (fuel + 0)]
  simp [resToVal]

/-- Core of the out-of-order scenario: after factory nA (depending on nB,
registered while nB was still unknown) and then value nB v, resolving nA
invokes the factory target with the value of nB and yields v. -/
theorem c9_resolve_after (s : State) (nA nB : String) (a f : Nat)
    (ps : List String) (v : JSVal) (fuel : Nat)
    (hgetD : s.arrays.getD a [] = [JSVal.str nB, JSVal.funcRef f])
    (hfun : s.funcs.get? f = some (.user ps { assigns := [], result := .retA (.arg 0) }))
    (hAB : nA ≠ nB) :
    _resolve (fuel + 6)
        (_value { s with
            providerStorage := (nA, s.providers.length) :: s.providerStorage,
            providers := s.providers ++
              [{ kind := .factoryP a, alreadyCalled := false,
                 cachedResult := .undefined, invocations := 0 }] } nB v)
        (.str nA)
      = some (setProviderCached
                (bumpCount
                  (setProviderCached
                    (setProviderCalled
                      (setProviderCalled
                        (_value { s with
                            providerStorage :=
                              (nA, s.providers.length) :: s.providerStorage,
                            providers := s.providers ++
                              [{ kind := .factoryP a, alreadyCalled := false,
                                 cachedResult := .undefined, invocations := 0 }] } nB v)
                        s.providers.length)
                      (s.providers.length + 1))
                    (s.providers.length + 1) v)
                  f)
                s.providers.length v, .ok v) := by
  have hlA : lookupStorage (_value { s with
      providerStorage := (nA, s.providers.length) :: s.providerStorage,
      providers := s.providers ++
        [{ kind := .factoryP a, alreadyCalled := false,
           cachedResult := .undefined, invocations := 0 }] } nB v).providerStorage
      (jsKeyString (.str nA)) = some s.providers.length := by
    simp [_value, _register, addProvider, lookupStorage, jsKeyString, Ne.symm hAB]
  have hpA : (_value { s with
      providerStorage := (nA, s.providers.length) :: s.providerStorage,
      providers := s.providers ++
        [{ kind := .factoryP a, alreadyCalled := false,
           cachedResult := .undefined, invocations := 0 }] } nB v).providers.get?
      s.providers.length
      = some { kind := .factoryP a, alreadyCalled := false,
               cachedResult := .undefined, invocations := 0 } := by
    simp only [_value, _register, addProvider]
    rw [List.get?_append (by simp)]
    exact List.get?_concat_length _ _
  unfold _resolve
  rw [show fuel + 6 = fuel + 5 + 1 from rfl,
      res_uncalled_unfold (fuel + 5) _ _ _ _ hlA hpA rfl]
  rw [show fuel + 5 = fuel + 4 + 1 from rfl]
  rw [body_factory (fuel + 4)]
  have harrs : (setProviderCalled (_value { s with
      providerStorage := (nA, s.providers.length) :: s.providerStorage,
      providers := s.providers ++
        [{ kind := .factoryP a, alreadyCalled := false,
           cachedResult := .undefined, invocations := 0 }] } nB v)
      s.providers.length).arrays.getD a [] = [JSVal.str nB, JSVal.funcRef f] := by
    rw [setProviderCalled_arrays]
    simp only [_value, _register, addProvider]
    exact hgetD
  have hx2 := extract_arr_ok harrs (getLast?_pair (JSVal.str nB) (JSVal.funcRef f))
  rw [show fuel + 4 = fuel + 3 + 1 from rfl,
      inj_unfold (fuel + 3) _ _ _ _ _ _ hx2 harrs]
  rw [dropLast_pair, getLast?_pair]
  simp only [Option.getD]
  have hlB : lookupStorage (setProviderCalled (_value { s with
      providerStorage := (nA, s.providers.length) :: s.providerStorage,
      providers := s.providers ++
        [{ kind := .factoryP a, alreadyCalled := false,
           cachedResult := .undefined, invocations := 0 }] } nB v)
      s.providers.length).providerStorage (jsKeyString (.str nB))
      = some (s.providers.length + 1) := by
    rw [setProviderCalled_storage]
    simp [_value, _register, addProvider, lookupStorage, jsKeyString]
  have hpB : (setProviderCalled (_value { s with
      providerStorage := (nA, s.providers.length) :: s.providerStorage,
      providers := s.providers ++
        [{ kind := .factoryP a, alreadyCalled := false,
           cachedResult := .undefined, invocations := 0 }] } nB v)
      s.providers.length).providers.get? (s.providers.length + 1)
      = some { kind := .valueP v, alreadyCalled := false,
               cachedResult := .undefined, invocations := 0 } := by
    rw [setProviderCalled_get_ne _ _ (by omega)]
    simp only [_value, _register, addProvider]
    have hlen : (s.providers ++
        [{ kind := .factoryP a, alreadyCalled := false,
           cachedResult := .undefined, invocations := 0 }] : List Provider).length
        = s.providers.length + 1 := by simp
    rw [← hlen]
    exact List.get?_concat_length _ _
  rw [show fuel + 3 = fuel + 2 + 1 from rfl,
      resL_cons_ok (fuel + 2) _ _ _ _ _
        (res_value_uncalled fuel _ (.str nB) (s.providers.length + 1) _ v hlB hpB rfl rfl)]
  rw [show fuel + 2 = fuel + 1 + 1 from rfl, resL_nil]
  simp only [resToVal, resToVals]
  have hfS : (setProviderCached (setProviderCalled (setProviderCalled (_value { s with
      providerStorage := (nA, s.providers.length) :: s.providerStorage,
      providers := s.providers ++
        [{ kind := .factoryP a, alreadyCalled := false,
           cachedResult := .undefined, invocations := 0 }] } nB v)
      s.providers.length) (s.providers.length + 1)) (s.providers.length + 1)
      v).funcs.get? f
      = some (.user ps { assigns := [], result := .retA (.arg 0) }) := by
    rw [setProviderCached_funcs, setProviderCalled_funcs, setProviderCalled_funcs]
    exact hfun
  rw [callFunc_user _ _ f none [v] ps _ hfS]
  simp [runAssigns, evalA, bumpCount, resToVal]

/-- C9: a factory may be registered while its dependency is still unknown:
the registration succeeds without invoking anything (callCounts unchanged,
so resolution is deferred), and once the dependency is registered a later
resolution of the factory succeeds, yielding the dependency value through
the target callable. -/
theorem C9_registration_order_independent :
    ∀ (s : State) (nA nB : String) (a f : Nat) (ps : List String) (v : JSVal)
      (fuel : Nat),
      s.arrays.get? a = some [.str nB, .funcRef f] →
      s.funcs.get? f = some (.user ps { assigns := [], result := .retA (.arg 0) }) →
      lookupStorage s.providerStorage nB = none →
      nA ≠ nB →
      (_factory s nA (.arrRef a)).2 = .ok ()
      ∧ (_factory s nA (.arrRef a)).1.callCounts = s.callCounts
      ∧ (∃ s3, _resolve (fuel + 6) (_value (_factory s nA (.arrRef a)).1 nB v)
          (.str nA) = some (s3, .ok v)) := by
  intro s nA nB a f ps v fuel harr hfun hnB hAB
  have hgetD : s.arrays.getD a [] = [JSVal.str nB, JSVal.funcRef f] := by
    simp only [List.getD, List.get?_eq_getElem?] at harr ⊢
    simp [harr]
  have hx : _extractProviderArray s (.arrRef a) = (s, .ok a) :=
    extract_arr_ok hgetD (getLast?_pair _ _)
  have hfac : _factory s nA (.arrRef a)
      = ({ s with
            providerStorage := (nA, s.providers.length) :: s.providerStorage,
            providers := s.providers ++
              [{ kind := .factoryP a, alreadyCalled := false,
                 cachedResult := .undefined, invocations := 0 }] }, .ok ()) := by
    unfold _factory
    rw [hx]
    rfl
  refine ⟨by rw [hfac], by rw [hfac], ?_⟩
  rw [hfac]
  exact ⟨_, c9_resolve_after s nA nB a f ps v fuel hgetD hfun hAB⟩

/-- Witness for C9: register the factory User depending on NextBigSound
before NextBigSound exists, then register NextBigSound as a value; injecting
User succeeds and observes the value. -/
theorem C9_registration_order_independent_witness :
    (_factory
        { providerStorage := [], providers := [], objects := [[]],
          arrays := [[.str "NextBigSound", .funcRef 0]],
          funcs := [.user ["NextBigSound"] { assigns := [], result := .retA (.arg 0) }],
          callCounts := [0] }
        "User" (.arrRef 0)).2 = .ok ()
    ∧ (_factory
        { providerStorage := [], providers := [], objects := [[]],
          arrays := [[.str "NextBigSound", .funcRef 0]],
          funcs := [.user ["NextBigSound"] { assigns := [], result := .retA (.arg 0) }],
          callCounts := [0] }
        "User" (.arrRef 0)).1.callCounts = [0]
    ∧ (∃ s3, _resolve (3 + 6)
        (_value (_factory
          { providerStorage := [], providers := [], objects := [[]],
            arrays := [[.str "NextBigSound", .funcRef 0]],
            funcs := [.user ["NextBigSound"] { assigns := [], result := .retA (.arg 0) }],
            callCounts := [0] }
          "User" (.arrRef 0)).1 "NextBigSound" (.str "NYC"))
        (.str "User") = some (s3, .ok (.str "NYC"))) :=
  C9_registration_order_independent
    { providerStorage := [], providers := [], objects := [[]],
      arrays := [[.str "NextBigSound", .funcRef 0]],
      funcs := [.user ["NextBigSound"] { assigns := [], result := .retA (.arg 0) }],
      callCounts := [0] }
    "User" "NextBigSound" 0 0 ["NextBigSound"] (.str "NYC") 3
    (by decide) (by decide) (by decide) (by decide)

theorem setProviderCalled_objects (s : State) (pid : Nat) :
    (setProviderCalled s pid).objects = s.objects := by
  unfold setProviderCalled
  cases s.providers.get? pid <;> rfl

theorem setProviderCalled_callCounts (s : State) (pid : Nat) :
    (setProviderCalled s pid).callCounts = s.callCounts := by
  unfold setProviderCalled
  cases s.providers.get? pid <;> rfl

theorem setArr_getD_self {s : State} {a : Nat} (l : List JSVal)
    (h : a < s.arrays.length) :
    (setArr s a l).arrays.getD a [] = l := by
  simp only [setArr, List.getD, List.get?_eq_getElem?]
  rw [List.getElem?_set_eq_of_lt _ h]
  rfl

/-- One step of the service callback once the captured array specification
extracts successfully: pop the target, allocate the context, bind, push,
and inject under the context; the callback answers with the context object
whatever the injection returned. -/
theorem body_service_step (fuel : Nat) (sc : State) (a : Nat)
    (elems : List JSVal) (fref : Nat)
    (hx : _extractProviderArray sc (.arrRef a) = (sc, .ok a))
    (hgd : sc.arrays.getD a [] = elems ++ [.funcRef fref]) :
    evalStep (fuel + 1) sc (.body (.serviceP (.arrRef a))) =
      match evalStep fuel (serviceMidState sc a elems fref)
          (.inj (.arrRef a) (some (setArr sc a elems).objects.length)) with
      | none => none
      | some (s6, .thrown e) => some (s6, .thrown e)
      | some (s6, .ok _) =>
        some (s6, .ok (.val (.objRef (setArr sc a elems).objects.length))) := by
  simp only [evalStep, hx, hgd, List.getLast?_concat, List.dropLast_concat,
    Option.getD, serviceMidState]

/-- First resolution of a service registered with an array specification:
assuming the dependency names resolve normally from the mid-state, the
resolution marks the provider, runs the target callable with the fresh
context as receiver, and produces the context object itself, caching it. -/
theorem service_first_resolve (s : State) (n : String) (a fref : Nat)
    (elems vs : List JSVal) (ps : List String) (body : FuncBody) (ae : AExpr)
    (s6 : State) (fuel : Nat)
    (harr : s.arrays.get? a = some (elems ++ [.funcRef fref]))
    (hfun : s.funcs.get? fref = some (.user ps body))
    (hret : body.result = .retA ae)
    (hres : evalStep (fuel + 3)
        (serviceMidState
          (setProviderCalled (_service s n (.arrRef a)) s.providers.length)
          a elems fref)
        (.resL elems) = some (s6, .ok (.vals vs))) :
    _resolve (fuel + 6) (_service s n (.arrRef a)) (.str n)
      = some (setProviderCached
                (runAssigns (bumpCount s6 fref) s.objects.length vs body.assigns)
                s.providers.length (.objRef s.objects.length),
              .ok (.objRef s.objects.length)) := by
  have hl : lookupStorage (_service s n (.arrRef a)).providerStorage
      (jsKeyString (.str n)) = some s.providers.length := by
    simp [_service, _register, addProvider, lookupStorage, jsKeyString]
  have hp : (_service s n (.arrRef a)).providers.get? s.providers.length
      = some { kind := .serviceP (.arrRef a), alreadyCalled := false,
               cachedResult := .undefined, invocations := 0 } := by
    simp only [_service, _register, addProvider]
    exact List.get?_concat_length _ _
  have hgdSC : (setProviderCalled (_service s n (.arrRef a))
      s.providers.length).arrays.getD a [] = elems ++ [.funcRef fref] := by
    rw [setProviderCalled_arrays]
    show s.arrays.getD a [] = _
    simp only [List.getD, List.get?_eq_getElem?] at harr ⊢
    simp [harr]
  have hxSC := extract_arr_ok hgdSC (List.getLast?_concat _)
  have halen : a < s.arrays.length := by
    have := List.get?_eq_some.mp harr
    exact this.1
  have hctx : (setArr (setProviderCalled (_service s n (.arrRef a))
      s.providers.length) a elems).objects.length = s.objects.length := by
    simp only [setArr]
    rw [setProviderCalled_objects]
    rfl
  have hgdMid : (serviceMidState
      (setProviderCalled (_service s n (.arrRef a)) s.providers.length)
      a elems fref).arrays.getD a []
      = elems ++ [.funcRef (setArr (setProviderCalled (_service s n (.arrRef a))
          s.providers.length) a elems).funcs.length] := by
    simp only [serviceMidState, setArr, List.getD, List.get?_eq_getElem?]
    rw [List.getElem?_set_eq_of_lt]
    · rfl
    · simp only [List.length_set]
      rw [setProviderCalled_arrays]
      exact halen
  have hxMid := extract_arr_ok hgdMid (List.getLast?_concat _)
  have hmidfuncs : (serviceMidState
      (setProviderCalled (_service s n (.arrRef a)) s.providers.length)
      a elems fref).funcs
      = s.funcs ++ [.bound fref s.objects.length] := by
    simp only [serviceMidState, setArr]
    rw [setProviderCalled_funcs, setProviderCalled_objects]
    rfl
  have hframe := evalStep_frame (fuel + 3) _ _ _ _ hres
  obtain ⟨ext, hext⟩ := hframe.2.2.2.1
  have hfb : s6.funcs.get? s.funcs.length = some (.bound fref s.objects.length) := by
    rw [hext, hmidfuncs, List.append_assoc,
        List.get?_append_right (Nat.le_refl _)]
    simp
  have hff : s6.funcs.get? fref = some (.user ps body) := by
    rw [hext, hmidfuncs, List.append_assoc,
        List.get?_append (List.get?_eq_some.mp hfun).1]
    exact hfun
  unfold _resolve
  rw [show fuel + 6 = fuel + 5 + 1 from rfl,
      res_uncalled_unfold (fuel + 5) _ _ _ _ hl hp rfl,
      show fuel + 5 = fuel + 4 + 1 from rfl,
      body_service_step (fuel + 4) _ a elems fref hxSC hgdSC,
      show fuel + 4 = fuel + 3 + 1 from rfl,
      inj_unfold (fuel + 3) _ _ _ _ _ _ hxMid hgdMid,
      List.dropLast_concat, List.getLast?_concat]
  simp only [Option.getD]
  rw [hres]
  simp only [resToVals]
  rw [show fuel + 3 = fuel + 2 + 1 from rfl]
  have hbfuncs : s6.funcs.get? (setArr (setProviderCalled
      (_service s n (.arrRef a)) s.providers.length) a elems).funcs.length
      = some (.bound fref s.objects.length) := by
    have : (setArr (setProviderCalled (_service s n (.arrRef a))
        s.providers.length) a elems).funcs.length = s.funcs.length := by
      simp only [setArr]
      rw [setProviderCalled_funcs]
      rfl
    rw [this]
    exact hfb
  rw [callFunc_bound (fuel + 2) s6 _ fref s.objects.length (some _) vs hbfuncs]
  rw [show fuel + 2 = fuel + 1 + 1 from rfl,
      callFunc_user (fuel + 1) s6 fref (some s.objects.length) vs ps body hff]
  rw [hret]
  simp only [Option.getD, hctx, resToVal]
  rfl

theorem setProviderCached_objects (s : State) (pid : Nat) (v : JSVal) :
    (setProviderCached s pid v).objects = s.objects := by
  unfold setProviderCached
  cases s.providers.get? pid <;> rfl

theorem runAssigns_get : ∀ (l : List (String × AExpr)) (s : State) (r : Nat)
    (args : List JSVal), r < s.objects.length →
    (runAssigns s r args l).objects.get? r
      = some (applyAssignsP args r (s.objects.getD r []) l) := by
  intro l
  induction l with
  | nil =>
    intro s r args hr
    simp only [runAssigns, applyAssignsP, List.getD, List.get?_eq_getElem?]
    rw [List.getElem?_eq_getElem hr]
    rfl
  | cons kv rest ih =>
    intro s r args hr
    obtain ⟨k, ae⟩ := kv
    simp only [runAssigns, applyAssignsP]
    have hlen : r < (setObjProp s r k (evalA args r ae)).objects.length := by
      simp [setObjProp]
      exact hr
    rw [ih _ r args hlen]
    have : (setObjProp s r k (evalA args r ae)).objects.getD r []
        = propSet (s.objects.getD r []) k (evalA args r ae) := by
      simp only [setObjProp, List.getD, List.get?_eq_getElem?]
      rw [List.getElem?_set_eq_of_lt _ hr]
      rfl
    rw [this]

/-- C3: a service registered with an array specification resolves, on first
resolution, to a freshly allocated context object: the context id is unused
in the starting state, the object is created empty, the target callable runs
with it as receiver (its property assignments land on it), and the resolved
value is the context object itself — for every result expression of the
callable, so never the callable's return value.  The dependency-resolution
hypothesis says the named dependencies resolve normally and do not touch the
fresh context object. -/
theorem C3_service_context_object :
    ∀ (s : State) (n : String) (a fref : Nat) (elems vs : List JSVal)
      (ps : List String) (body : FuncBody) (ae : AExpr) (s6 : State) (fuel : Nat),
      s.arrays.get? a = some (elems ++ [.funcRef fref]) →
      s.funcs.get? fref = some (.user ps body) →
      body.result = .retA ae →
      evalStep (fuel + 3)
        (serviceMidState
          (setProviderCalled (_service s n (.arrRef a)) s.providers.length)
          a elems fref)
        (.resL elems) = some (s6, .ok (.vals vs)) →
      s6.objects.get? s.objects.length = some [] →
      (s.objects.get? s.objects.length = none)
      ∧ ((serviceMidState
            (setProviderCalled (_service s n (.arrRef a)) s.providers.length)
            a elems fref).objects.get? s.objects.length = some [])
      ∧ (∃ s8, _resolve (fuel + 6) (_service s n (.arrRef a)) (.str n)
            = some (s8, .ok (.objRef s.objects.length))
          ∧ s8.objects.get? s.objects.length
              = some (applyAssignsP vs s.objects.length [] body.assigns)) := by
  intro s n a fref elems vs ps body ae s6 fuel harr hfun hret hres hctx6
  refine ⟨List.get?_eq_none.mpr (Nat.le_refl _), ?_, ?_⟩
  · simp only [serviceMidState, setArr]
    rw [setProviderCalled_objects]
    show ((_service s n (.arrRef a)).objects ++ [[]]).get? s.objects.length = some []
    have : (_service s n (.arrRef a)).objects = s.objects := rfl
    rw [this]
    exact List.get?_concat_length _ _
  · refine ⟨_, service_first_resolve s n a fref elems vs ps body ae s6 fuel
      harr hfun hret hres, ?_⟩
    rw [setProviderCached_objects]
    have hlen6 : s.objects.length < s6.objects.length :=
      (List.get?_eq_some.mp hctx6).1
    have hbo : (bumpCount s6 fref).objects = s6.objects := rfl
    have hgd6 : (bumpCount s6 fref).objects.getD s.objects.length [] = [] := by
      rw [hbo]
      simp only [List.getD, List.get?_eq_getElem?]
      simp only [List.get?_eq_getElem?] at hctx6
      simp [hctx6]
    rw [runAssigns_get body.assigns (bumpCount s6 fref) s.objects.length vs
      (by rw [hbo]; exact hlen6)]
    rw [hgd6]

/-- Witness for C3 at a concrete service: the constructor assigns city NYC
to its receiver and returns 42; the dependency resolves to the fresh context
object carrying city NYC, not to 42. -/
theorem C3_service_context_object_witness :
    (({ providerStorage := [], providers := [], objects := [[]],
        arrays := [[.funcRef 0]],
        funcs := [.user [] { assigns := [("city", .lit (.str "NYC"))],
                             result := .retA (.lit (.num 42)) }],
        callCounts := [0] } : State).objects.get? 1 = none)
    ∧ ((serviceMidState
          (setProviderCalled
            (_service
              { providerStorage := [], providers := [], objects := [[]],
                arrays := [[.funcRef 0]],
                funcs := [.user [] { assigns := [("city", .lit (.str "NYC"))],
                                     result := .retA (.lit (.num 42)) }],
                callCounts := [0] }
              "NBS" (.arrRef 0)) 0)
          0 [] 0).objects.get? 1 = some [])
    ∧ (∃ s8, _resolve (2 + 6)
          (_service
            { providerStorage := [], providers := [], objects := [[]],
              arrays := [[.funcRef 0]],
              funcs := [.user [] { assigns := [("city", .lit (.str "NYC"))],
                                   result := .retA (.lit (.num 42)) }],
              callCounts := [0] }
            "NBS" (.arrRef 0)) (.str "NBS")
          = some (s8, .ok (.objRef 1))
        ∧ s8.objects.get? 1
            = some (applyAssignsP [] 1 [] [("city", .lit (.str "NYC"))])) := by
  have h := C3_service_context_object
    { providerStorage := [], providers := [], objects := [[]],
      arrays := [[.funcRef 0]],
      funcs := [.user [] { assigns := [("city", .lit (.str "NYC"))],
                           result := .retA (.lit (.num 42)) }],
      callCounts := [0] }
    "NBS" 0 0 [] []
    [] { assigns := [("city", .lit (.str "NYC"))], result := .retA (.lit (.num 42)) }
    (.lit (.num 42))
    (serviceMidState
      (setProviderCalled
        (_service
          { providerStorage := [], providers := [], objects := [[]],
            arrays := [[.funcRef 0]],
            funcs := [.user [] { assigns := [("city", .lit (.str "NYC"))],
                                 result := .retA (.lit (.num 42)) }],
            callCounts := [0] }
          "NBS" (.arrRef 0)) 0)
      0 [] 0)
    2
    (by decide) (by decide) (by decide) (by decide) (by decide)
  exact h

/-- C10: when a service registered with an array specification is first
resolved, the very heap array the caller supplied is mutated in place: the
target function is removed from its end and replaced by a freshly allocated
context-bound copy of itself, so after resolution the array holds the
original leading elements followed by a function id that did not exist
before (in particular not the function the caller put there), and that new
id is a bound wrapper of the original function around the fresh context.
The dependency hypothesis says the named dependencies resolve normally and
do not touch the specification array. -/
theorem C10_service_mutates_spec_array :
    ∀ (s : State) (n : String) (a fref : Nat) (elems vs : List JSVal)
      (ps : List String) (body : FuncBody) (ae : AExpr) (s6 : State) (fuel : Nat),
      s.arrays.get? a = some (elems ++ [.funcRef fref]) →
      s.funcs.get? fref = some (.user ps body) →
      body.result = .retA ae →
      evalStep (fuel + 3)
        (serviceMidState
          (setProviderCalled (_service s n (.arrRef a)) s.providers.length)
          a elems fref)
        (.resL elems) = some (s6, .ok (.vals vs)) →
      s6.arrays.get? a
        = (serviceMidState
            (setProviderCalled (_service s n (.arrRef a)) s.providers.length)
            a elems fref).arrays.get? a →
      ∃ s8, _resolve (fuel + 6) (_service s n (.arrRef a)) (.str n)
            = some (s8, .ok (.objRef s.objects.length))
        ∧ s8.arrays.get? a = some (elems ++ [.funcRef s.funcs.length])
        ∧ s8.funcs.get? s.funcs.length = some (.bound fref s.objects.length)
        ∧ s.funcs.length ≠ fref := by
  intro s n a fref elems vs ps body ae s6 fuel harr hfun hret hres harr6
  have halen : a < s.arrays.length := (List.get?_eq_some.mp harr).1
  have hfltn : fref < s.funcs.length := (List.get?_eq_some.mp hfun).1
  refine ⟨_, service_first_resolve s n a fref elems vs ps body ae s6 fuel
    harr hfun hret hres, ?_, ?_, by omega⟩
  · rw [setProviderCached_arrays,
        runAssigns_arrays s.objects.length vs body.assigns (bumpCount s6 fref)]
    show s6.arrays.get? a = _
    rw [harr6]
    simp only [serviceMidState, setArr, List.get?_eq_getElem?]
    rw [List.getElem?_set_eq_of_lt]
    · have : (setProviderCalled (_service s n (.arrRef a))
          s.providers.length).funcs = s.funcs := by
        rw [setProviderCalled_funcs]
        rfl
      simp [this]
    · simp only [List.length_set]
      rw [setProviderCalled_arrays]
      exact halen
  · rw [setProviderCached_funcs,
        runAssigns_funcs s.objects.length vs body.assigns (bumpCount s6 fref)]
    show s6.funcs.get? s.funcs.length = _
    have hframe := evalStep_frame (fuel + 3) _ _ _ _ hres
    obtain ⟨ext, hext⟩ := hframe.2.2.2.1
    have hmidfuncs : (serviceMidState
        (setProviderCalled (_service s n (.arrRef a)) s.providers.length)
        a elems fref).funcs
        = s.funcs ++ [.bound fref s.objects.length] := by
      simp only [serviceMidState, setArr]
      rw [setProviderCalled_funcs, setProviderCalled_objects]
      rfl
    rw [hext, hmidfuncs, List.append_assoc,
        List.get?_append_right (Nat.le_refl _)]
    simp

/-- Witness for C10 at a concrete service: after first resolution the
caller's one-element specification array no longer holds the original
function id 0 but a fresh bound copy with id 1. -/
theorem C10_service_mutates_spec_array_witness :
    ∃ s8, _resolve (2 + 6)
          (_service
            { providerStorage := [], providers := [], objects := [[]],
              arrays := [[.funcRef 0]],
              funcs := [.user [] { assigns := [("city", .lit (.str "NYC"))],
                                   result := .retA (.lit (.num 42)) }],
              callCounts := [0] }
            "NBS" (.arrRef 0)) (.str "NBS")
          = some (s8, .ok (.objRef 1))
      ∧ s8.arrays.get? 0 = some ([] ++ [.funcRef 1])
      ∧ s8.funcs.get? 1 = some (.bound 0 1)
      ∧ (1 : Nat) ≠ 0 :=
  C10_service_mutates_spec_array
    { providerStorage := [], providers := [], objects := [[]],
      arrays := [[.funcRef 0]],
      funcs := [.user [] { assigns := [("city", .lit (.str "NYC"))],
                           result := .retA (.lit (.num 42)) }],
      callCounts := [0] }
    "NBS" 0 0 [] []
    [] { assigns := [("city", .lit (.str "NYC"))], result := .retA (.lit (.num 42)) }
    (.lit (.num 42))
    (serviceMidState
      (setProviderCalled
        (_service
          { providerStorage := [], providers := [], objects := [[]],
            arrays := [[.funcRef 0]],
            funcs := [.user [] { assigns := [("city", .lit (.str "NYC"))],
                                 result := .retA (.lit (.num 42)) }],
            callCounts := [0] }
          "NBS" (.arrRef 0)) 0)
      0 [] 0)
    2
    (by decide) (by decide) (by decide) (by decide) (by decide)
